import Mathlib

/-!
# meet-lucy: the function-calling loop of `02-function-calling-with-loop`

A shallow embedding of `src/02-function-calling-with-loop/main.go`:

* `GetToolsIndex` and `executeFunction`, together with a model of the parts of the Go
  standard library they rely on (`encoding/json` decoding into the two argument structs,
  `float64` parsing, addition and `%g` formatting);
* the body of the `for !stopped` loop of `main` as a function on an explicit loop state,
  the gateway (`client.Chat.Completions.New`) and the clock (`time.Now`, `time.Since`)
  being inputs of each iteration.

Go strings are modelled by `String`: the arguments reaching `executeFunction` have been
decoded from the JSON body of the completion, hence are valid UTF-8.
-/

namespace MeetLucy

/-! ## Data model of the loop -/

/-- One element of `completion.Choices[0].Message.ToolCalls`. -/
structure ToolCall where
  ID : String
  Name : String
  Arguments : String
deriving DecidableEq, Repr

/-- The type `openai.ChatCompletionMessageToolCallParam` as the loop fills it
(lines 174-181). -/
structure ToolCallParam where
  ID : String
  Type_ : String
  Name : String
  Arguments : String
deriving DecidableEq, Repr

/-- The cases of `openai.ChatCompletionMessageParamUnion` that the program builds:
`openai.UserMessage`, an assistant message (`Content` is unset when the message is built
from `ToolCalls` alone), and `openai.ToolMessage(content, toolCallID)`. -/
inductive Message where
  | user (content : String)
  | assistant (content : Option String) (toolCalls : List ToolCallParam)
  | tool (content : String) (toolCallID : String)
deriving DecidableEq, Repr

/-- FunctionCallRecord tracks each function call and its result (lines 17-23).
`Duration` is a `time.Duration`, a number of nanoseconds. -/
structure FunctionCallRecord where
  FunctionName : String
  Arguments : String
  Result : String
  CallID : String
  Duration : Int
deriving DecidableEq, Repr

/-- The fields of `completion.Choices[i]` that the loop reads. -/
structure Choice where
  FinishReason : String
  Content : String
  ToolCalls : List ToolCall
deriving DecidableEq, Repr

/-- The fields of the completion that the loop reads. -/
structure Completion where
  Choices : List Choice
deriving DecidableEq, Repr

/-- What one iteration of the loop receives from its environment: the reading of
`time.Now()` (line 142), the outcome of `client.Chat.Completions.New` (line 154, an error
text or a completion), and the clock reading taken by `time.Since` (line 160).
Clock readings are monotonic nanosecond counts. -/
structure Exchange where
  startTime : Nat
  response : Except String Completion
  sinceTime : Nat

/-- The variables of `main` that the loop reads and writes (lines 131-137). -/
structure LoopState where
  messages : List Message
  functionCallHistory : List FunctionCallRecord
  stopped : Bool
deriving DecidableEq, Repr

/-- How one pass through the loop body ends: it reaches the end of the body (and the loop
condition is evaluated next), `main` returns at line 157, or the index expression
`completion.Choices[0]` of line 162 is out of range and the program panics. -/
inductive Outcome where
  | next (st : LoopState)
  | returned (err : String) (st : LoopState)
  | panicked (st : LoopState)
deriving DecidableEq, Repr

/-- The state at line 137: the single user message, no recorded call, not stopped. -/
def initialState (userMessage : String) : LoopState :=
  { messages := [Message.user userMessage], functionCallHistory := [], stopped := false }

/-- The value of `time.Since(startTime)` when the clock reads `now`: the difference of the
two monotonic readings, in nanoseconds. (`time.Since` saturates at the bounds of `int64`,
about 292 years, which readings of the monotonic clock of one process do not reach.) -/
def timeSince (startTime now : Nat) : Int := (now : Int) - (startTime : Int)


/-! ## encoding/json: tokens and values

`json.Unmarshal` first validates the whole input (`checkValid`) and then walks it. The
model reads the input into tokens with a character-driven state machine, builds the value
with a stack of open containers, and decodes the value into the argument struct. -/

/-- A JSON value; a number keeps its literal, a string is held unquoted. -/
inductive JValue where
  | null
  | bool (b : Bool)
  | number (literal : List Char)
  | string (s : List Char)
  | array (elems : List JValue)
  | object (members : List (List Char × JValue))

/-- The tokens of a JSON text. -/
inductive Token where
  | beginObject | endObject | beginArray | endArray | colon | comma
  | litNull | litTrue | litFalse
  | number (literal : List Char)
  | string (s : List Char)
deriving DecidableEq, Repr

/-- A piece of a string literal before unquoting: a character of the input, or the
UTF-16 code unit written by a `\uXXXX` escape. -/
inductive StrItem where
  | char (c : Char)
  | unit (u : Nat)
deriving DecidableEq, Repr

/-- Unquoting of the collected pieces (`unquoteBytes`): a high surrogate escape directly
followed by a low surrogate escape is one character, any other surrogate escape becomes
U+FFFD. -/
def unquote : List StrItem → List Char
  | [] => []
  | StrItem.char c :: rest => c :: unquote rest
  | [StrItem.unit u] =>
    if 0xD800 ≤ u ∧ u < 0xE000 then [Char.ofNat 0xFFFD] else [Char.ofNat u]
  | StrItem.unit u :: StrItem.char c :: rest =>
    (if 0xD800 ≤ u ∧ u < 0xE000 then Char.ofNat 0xFFFD else Char.ofNat u) :: c :: unquote rest
  | StrItem.unit u :: StrItem.unit u2 :: rest =>
    if 0xD800 ≤ u ∧ u < 0xE000 then
      if u < 0xDC00 ∧ 0xDC00 ≤ u2 ∧ u2 < 0xE000 then
        Char.ofNat ((u - 0xD800) * 0x400 + (u2 - 0xDC00) + 0x10000) :: unquote rest
      else Char.ofNat 0xFFFD :: unquote (StrItem.unit u2 :: rest)
    else Char.ofNat u :: unquote (StrItem.unit u2 :: rest)

/-- The states of the scanner inside a number literal (`stateNeg`, `state0`, `state1`,
`stateDot`, `stateDot0`, `stateE`, `stateESign`, `stateE0`). -/
inductive NumPhase where
  | neg | zero | int | dot | frac | e | eSign | exp
deriving DecidableEq, Repr

/-- The phases in which a number literal may end. -/
def NumPhase.complete : NumPhase → Bool
  | NumPhase.zero | NumPhase.int | NumPhase.frac | NumPhase.exp => true
  | _ => false

/-- State of the tokenizer. -/
inductive Lex where
  | idle
  | inString (acc : List StrItem)
  | inStringEsc (acc : List StrItem)
  | inStringU (acc : List StrItem) (hex : List Nat)
  | inNumber (phase : NumPhase) (acc : List Char)
  | inLiteral (expect : List Char) (tok : Token)

/-- Value of a hexadecimal digit. -/
def hexValue (c : Char) : Option Nat :=
  if '0' ≤ c ∧ c ≤ '9' then some (c.toNat - 48)
  else if 'a' ≤ c ∧ c ≤ 'f' then some (c.toNat - 87)
  else if 'A' ≤ c ∧ c ≤ 'F' then some (c.toNat - 55)
  else none

/-- The four white space characters of the scanner (`isSpace`). -/
def isSpace (c : Char) : Bool :=
  c = ' ' || c = '\t' || c = '\r' || c = '\n'

/-- A character read between tokens. -/
def lexIdle (c : Char) : Option (Lex × List Token) :=
  if isSpace c then some (Lex.idle, [])
  else if c = '{' then some (Lex.idle, [Token.beginObject])
  else if c = '}' then some (Lex.idle, [Token.endObject])
  else if c = '[' then some (Lex.idle, [Token.beginArray])
  else if c = ']' then some (Lex.idle, [Token.endArray])
  else if c = ':' then some (Lex.idle, [Token.colon])
  else if c = ',' then some (Lex.idle, [Token.comma])
  else if c = '"' then some (Lex.inString [], [])
  else if c = '-' then some (Lex.inNumber NumPhase.neg [c], [])
  else if c = '0' then some (Lex.inNumber NumPhase.zero [c], [])
  else if '1' ≤ c ∧ c ≤ '9' then some (Lex.inNumber NumPhase.int [c], [])
  else if c = 't' then some (Lex.inLiteral ['r', 'u', 'e'] Token.litTrue, [])
  else if c = 'f' then some (Lex.inLiteral ['a', 'l', 's', 'e'] Token.litFalse, [])
  else if c = 'n' then some (Lex.inLiteral ['u', 'l', 'l'] Token.litNull, [])
  else none

/-- A character that cannot continue the number literal `acc` ends it. -/
def endNumber (acc : List Char) (c : Char) : Option (Lex × List Token) :=
  match lexIdle c with
  | none => none
  | some (st, ts) => some (st, Token.number acc.reverse :: ts)

/-- A character read inside a number literal. -/
def lexNumber (phase : NumPhase) (acc : List Char) (c : Char) : Option (Lex × List Token) :=
  let digit : Bool := '0' ≤ c ∧ c ≤ '9'
  let expo : Bool := c = 'e' || c = 'E'
  match phase with
  | NumPhase.neg =>
    if c = '0' then some (Lex.inNumber NumPhase.zero (c :: acc), [])
    else if digit then some (Lex.inNumber NumPhase.int (c :: acc), [])
    else none
  | NumPhase.zero =>
    if c = '.' then some (Lex.inNumber NumPhase.dot (c :: acc), [])
    else if expo then some (Lex.inNumber NumPhase.e (c :: acc), [])
    else endNumber acc c
  | NumPhase.int =>
    if digit then some (Lex.inNumber NumPhase.int (c :: acc), [])
    else if c = '.' then some (Lex.inNumber NumPhase.dot (c :: acc), [])
    else if expo then some (Lex.inNumber NumPhase.e (c :: acc), [])
    else endNumber acc c
  | NumPhase.dot =>
    if digit then some (Lex.inNumber NumPhase.frac (c :: acc), []) else none
  | NumPhase.frac =>
    if digit then some (Lex.inNumber NumPhase.frac (c :: acc), [])
    else if expo then some (Lex.inNumber NumPhase.e (c :: acc), [])
    else endNumber acc c
  | NumPhase.e =>
    if c = '+' || c = '-' then some (Lex.inNumber NumPhase.eSign (c :: acc), [])
    else if digit then some (Lex.inNumber NumPhase.exp (c :: acc), [])
    else none
  | NumPhase.eSign =>
    if digit then some (Lex.inNumber NumPhase.exp (c :: acc), []) else none
  | NumPhase.exp =>
    if digit then some (Lex.inNumber NumPhase.exp (c :: acc), [])
    else endNumber acc c

/-- The character after a backslash inside a string literal. -/
def lexEscape (acc : List StrItem) (c : Char) : Option (Lex × List Token) :=
  if c = 'u' then some (Lex.inStringU acc [], [])
  else
    let plain : Option Char :=
      if c = '"' ∨ c = '\\' ∨ c = '/' then some c
      else if c = 'b' then some (Char.ofNat 8)
      else if c = 'f' then some (Char.ofNat 12)
      else if c = 'n' then some '\n'
      else if c = 'r' then some '\r'
      else if c = 't' then some '\t'
      else none
    match plain with
    | none => none
    | some x => some (Lex.inString (StrItem.char x :: acc), [])

/-- One step of the tokenizer: the next state and the tokens completed by the character,
or `none` on a syntax error. -/
def lexStep : Lex → Char → Option (Lex × List Token)
  | Lex.idle, c => lexIdle c
  | Lex.inString acc, c =>
    if c = '"' then some (Lex.idle, [Token.string (unquote acc.reverse)])
    else if c = '\\' then some (Lex.inStringEsc acc, [])
    else if c.toNat < 0x20 then none
    else some (Lex.inString (StrItem.char c :: acc), [])
  | Lex.inStringEsc acc, c => lexEscape acc c
  | Lex.inStringU acc hex, c =>
    match hexValue c with
    | none => none
    | some d =>
      match hex with
      | [d2, d1, d0] =>
        some (Lex.inString (StrItem.unit (((d0 * 16 + d1) * 16 + d2) * 16 + d) :: acc), [])
      | _ => some (Lex.inStringU acc (d :: hex), [])
  | Lex.inNumber phase acc, c => lexNumber phase acc c
  | Lex.inLiteral expect tok, c =>
    match expect with
    | [] => none
    | [x] => if c = x then some (Lex.idle, [tok]) else none
    | x :: rest => if c = x then some (Lex.inLiteral rest tok, []) else none

/-- The tokens of a text, or `none` on a syntax error. At the end of the input an
unfinished string or literal is an error and a complete number literal ends. -/
def lexAll : Lex → List Char → Option (List Token)
  | Lex.idle, [] => some []
  | Lex.inNumber phase acc, [] =>
    if phase.complete then some [Token.number acc.reverse] else none
  | _, [] => none
  | st, c :: cs =>
    match lexStep st c with
    | none => none
    | some (st2, ts) =>
      match lexAll st2 cs with
      | none => none
      | some more => some (ts ++ more)


/-! ## encoding/json: building the value -/

/-- An open container: an array with the elements read so far, or an object with the
members read so far and the key whose value is awaited (both most recent first). -/
inductive Frame where
  | arr (elems : List JValue)
  | obj (members : List (List Char × JValue)) (key : Option (List Char))

/-- What the parser may read next. -/
inductive Expect where
  | value | valueOrEnd | commaOrEnd | keyOrEnd | key | colon | done
deriving DecidableEq, Repr

/-- State of the parser: the open containers, innermost first, what is expected next,
and the top-level value once it is complete. -/
structure Parser where
  stack : List Frame
  expect : Expect
  result : Option JValue

/-- The nesting limit of the scanner (`maxNestingDepth`). -/
def maxNestingDepth : Nat := 10000

/-- A completed value goes to the innermost open container, or is the top-level value. -/
def deliver (v : JValue) : List Frame → Option Parser
  | [] => some ⟨[], Expect.done, some v⟩
  | Frame.arr es :: fs => some ⟨Frame.arr (v :: es) :: fs, Expect.commaOrEnd, none⟩
  | Frame.obj ms (some k) :: fs =>
    some ⟨Frame.obj ((k, v) :: ms) none :: fs, Expect.commaOrEnd, none⟩
  | Frame.obj _ none :: _ => none

/-- A token read where a value starts. -/
def parseValueToken (stack : List Frame) : Token → Option Parser
  | Token.litNull => deliver JValue.null stack
  | Token.litTrue => deliver (JValue.bool true) stack
  | Token.litFalse => deliver (JValue.bool false) stack
  | Token.number lit => deliver (JValue.number lit) stack
  | Token.string s => deliver (JValue.string s) stack
  | Token.beginArray =>
    if stack.length + 1 ≤ maxNestingDepth then
      some ⟨Frame.arr [] :: stack, Expect.valueOrEnd, none⟩
    else none
  | Token.beginObject =>
    if stack.length + 1 ≤ maxNestingDepth then
      some ⟨Frame.obj [] none :: stack, Expect.keyOrEnd, none⟩
    else none
  | _ => none

/-- A token that closes the innermost container. -/
def parseEnd (stack : List Frame) (t : Token) : Option Parser :=
  match stack, t with
  | Frame.arr es :: fs, Token.endArray => deliver (JValue.array es.reverse) fs
  | Frame.obj ms none :: fs, Token.endObject => deliver (JValue.object ms.reverse) fs
  | _, _ => none

/-- A token read where an object key is expected. -/
def parseKey (stack : List Frame) (t : Token) : Option Parser :=
  match stack, t with
  | Frame.obj ms none :: fs, Token.string k =>
    some ⟨Frame.obj ms (some k) :: fs, Expect.colon, none⟩
  | _, _ => none

/-- One step of the parser, `none` on a syntax error. -/
def parseStep (p : Parser) (t : Token) : Option Parser :=
  match p.expect with
  | Expect.value => parseValueToken p.stack t
  | Expect.valueOrEnd =>
    if t = Token.endArray then parseEnd p.stack t else parseValueToken p.stack t
  | Expect.commaOrEnd =>
    if t = Token.comma then
      match p.stack with
      | Frame.arr _ :: _ => some ⟨p.stack, Expect.value, none⟩
      | Frame.obj _ _ :: _ => some ⟨p.stack, Expect.key, none⟩
      | [] => none
    else parseEnd p.stack t
  | Expect.keyOrEnd =>
    if t = Token.endObject then parseEnd p.stack t else parseKey p.stack t
  | Expect.key => parseKey p.stack t
  | Expect.colon => if t = Token.colon then some ⟨p.stack, Expect.value, none⟩ else none
  | Expect.done => none

/-- The parser run over a list of tokens. -/
def parseAll : Parser → List Token → Option Parser
  | p, [] => some p
  | p, t :: ts =>
    match parseStep p t with
    | none => none
    | some p2 => parseAll p2 ts

/-- The value written by a JSON text; `none` when `checkValid` rejects the text. -/
def parseJSON (data : String) : Option JValue :=
  match lexAll Lex.idle data.data with
  | none => none
  | some ts =>
    match parseAll ⟨[], Expect.value, none⟩ ts with
    | none => none
    | some p => p.result


/-! ## float64

A `float64` is modelled exactly: a finite value is `(-1)^neg * mant * 2^exp` with
`mant < 2^53` and `-1074 ≤ exp ≤ 971`. Parsing and addition compute the exact rational
result and round it to nearest, ties to even. -/

/-- A float64 value. -/
inductive Float64 where
  | finite (neg : Bool) (mant : Nat) (exp : Int)
  | inf (neg : Bool)
  | nan
deriving DecidableEq, Repr

/-- The zero value of a `float64` variable. -/
def Float64.zero : Float64 := Float64.finite false 0 (-1074)

/-- The quotient `num / den` rounded to the nearest integer, ties to even. -/
def divRoundEven (num den : Nat) : Nat :=
  let q := num / den
  let r := num % den
  if 2 * r < den then q
  else if den < 2 * r then q + 1
  else if q % 2 = 0 then q else q + 1

/-- The number of times `n` can be halved before it is below 2, at most `fuel`. -/
def log2Aux : Nat → Nat → Nat
  | 0, _ => 0
  | fuel + 1, n => if n < 2 then 0 else log2Aux fuel (n / 2) + 1

/-- The integer binary logarithm of a positive number. -/
def log2 (n : Nat) : Nat := log2Aux n n

/-- The fraction `n / (d * 2^e)` as a pair numerator, denominator. -/
def scaleByPow2 (n d : Nat) (e : Int) : Nat × Nat :=
  if 0 ≤ e then (n, d * 2 ^ e.toNat) else (n * 2 ^ (-e).toNat, d)

/-- The float64 nearest to `(-1)^neg * n / d` (`d` positive), infinite when the rounded
value exceeds the largest finite float64. -/
def roundFloat64 (neg : Bool) (n d : Nat) : Float64 :=
  if n = 0 then Float64.finite neg 0 (-1074)
  else
    let e1 : Int := (log2 n : Int) - (log2 d : Int) - 52
    let s1 := scaleByPow2 n d e1
    let e2 : Int := if s1.1 / s1.2 < 2 ^ 52 then e1 - 1 else e1
    let e : Int := max e2 (-1074)
    let s := scaleByPow2 n d e
    let q := divRoundEven s.1 s.2
    let m : Nat := if q = 2 ^ 53 then 2 ^ 52 else q
    let e3 : Int := if q = 2 ^ 53 then e + 1 else e
    if 971 < e3 then Float64.inf neg else Float64.finite neg m e3

/-- The number written by a list of decimal digits. -/
def digitsValue (ds : List Char) : Nat :=
  ds.foldl (fun acc c => acc * 10 + (c.toNat - 48)) 0

/-- The exponent part of a number literal: empty, or `e` or `E`, an optional sign and
digits. -/
def exponentValue : List Char → Int
  | [] => 0
  | _ :: '-' :: ds => - (digitsValue ds : Int)
  | _ :: '+' :: ds => (digitsValue ds : Int)
  | _ :: ds => (digitsValue ds : Int)

/-- The value of `strconv.ParseFloat(literal, 64)` on a JSON number literal; `none` stands
for the range error returned when the value rounds to an infinity. -/
def parseFloat (literal : List Char) : Option Float64 :=
  let neg : Bool := literal.head? = some '-'
  let body := if neg then literal.drop 1 else literal
  let intDigits := body.takeWhile Char.isDigit
  let afterInt := body.dropWhile Char.isDigit
  let hasFrac : Bool := afterInt.head? = some '.'
  let fracDigits := if hasFrac then (afterInt.drop 1).takeWhile Char.isDigit else []
  let afterFrac := if hasFrac then (afterInt.drop 1).dropWhile Char.isDigit else afterInt
  let d := digitsValue (intDigits ++ fracDigits)
  let p : Int := exponentValue afterFrac - (fracDigits.length : Int)
  let x := if 0 ≤ p then roundFloat64 neg (d * 10 ^ p.toNat) 1
           else roundFloat64 neg d (10 ^ (-p).toNat)
  match x with
  | Float64.finite n m e => some (Float64.finite n m e)
  | _ => none

/-- The integer `(-1)^neg * m`. -/
def signedInt (neg : Bool) (m : Nat) : Int := if neg then - (m : Int) else (m : Int)

/-- The float64 addition `x + y`. -/
def Float64.add : Float64 → Float64 → Float64
  | Float64.nan, _ => Float64.nan
  | _, Float64.nan => Float64.nan
  | Float64.inf a, Float64.inf b => if a = b then Float64.inf a else Float64.nan
  | Float64.inf a, Float64.finite _ _ _ => Float64.inf a
  | Float64.finite _ _ _, Float64.inf b => Float64.inf b
  | Float64.finite na ma ea, Float64.finite nb mb eb =>
    let e : Int := min ea eb
    let s : Int := signedInt na (ma * 2 ^ (ea - e).toNat) + signedInt nb (mb * 2 ^ (eb - e).toNat)
    if s = 0 then Float64.finite (na && nb) 0 (-1074)
    else if 0 ≤ e then roundFloat64 (decide (s < 0)) (s.natAbs * 2 ^ e.toNat) 1
    else roundFloat64 (decide (s < 0)) s.natAbs (2 ^ (-e).toNat)

/-! ### Shortest formatting (`%g`)

For a positive finite `mant * 2^exp` all quantities are compared after scaling: a decimal
`c * 10^p` stands for `c * a` and a multiple `x * 2^(exp-2)` for `x * b`, where
`(a, b) = decimalScale exp p`. -/

/-- The scaling pair for binary exponent `e` and decimal exponent `p`. -/
def decimalScale (e p : Int) : Nat × Nat :=
  let bn : Nat := if 0 ≤ e - 2 then 2 ^ (e - 2).toNat else 1
  let bd : Nat := if 0 ≤ e - 2 then 1 else 2 ^ (2 - e).toNat
  if 0 ≤ p then (bd * 10 ^ p.toNat, bn) else (bd, bn * 10 ^ (-p).toNat)

/-- The largest `p` with `10^p ≤ mant * 2^exp`, searched downwards from `p`. -/
def decimalExponent (m : Nat) (e : Int) : Nat → Int → Int
  | 0, p => p
  | fuel + 1, p =>
    let s := decimalScale e p
    if s.1 ≤ 4 * m * s.2 then p else decimalExponent m e fuel (p - 1)

/-- Is the decimal with scaled value `x` rounded to `mant * 2^exp` when read back? The
bounds are the midpoints to the neighbouring float64 values, included when `mant` is
even. -/
def roundsBack (m : Nat) (e : Int) (b x : Nat) : Bool :=
  let lower : Nat := if m = 2 ^ 52 ∧ -1074 < e then 4 * m - 1 else 4 * m - 2
  let upper : Nat := 4 * m + 2
  let even : Bool := m % 2 = 0
  (lower * b < x || (even && lower * b = x)) && (x < upper * b || (even && x = upper * b))

/-- The shortest decimal `c * 10^p` that reads back as `mant * 2^exp`, the closest one
(ties to even) when two decimals of that length do; `k` is the number of digits tried
and `dp - 1` the decimal exponent of the value. -/
def shortestDecimal (m : Nat) (e : Int) (dp : Int) : Nat → Nat → Nat × Int
  | 0, k =>
    let p : Int := dp - (k : Int)
    let s := decimalScale e p
    (divRoundEven (4 * m * s.2) s.1, p)
  | fuel + 1, k =>
    let p : Int := dp - (k : Int)
    let s := decimalScale e p
    let v := 4 * m * s.2
    let lo := v / s.1
    let hi := lo + 1
    let okLo := roundsBack m e s.2 (lo * s.1)
    let okHi := roundsBack m e s.2 (hi * s.1)
    if okLo && okHi then (divRoundEven v s.1, p)
    else if okLo then (lo, p)
    else if okHi then (hi, p)
    else shortestDecimal m e dp fuel (k + 1)

/-- A list of digits without its trailing zeros. -/
def trimZeros (ds : List Char) : List Char :=
  (ds.reverse.dropWhile (fun c => c = '0')).reverse

/-- The digits and the position of the decimal point of the shortest decimal of a finite
float64 (`value = 0.d1d2... * 10^dp`); no digit for zero. -/
def shortestDigits (m : Nat) (e : Int) : List Char × Int :=
  if m = 0 then ([], 0)
  else
    let dp := decimalExponent m e 640 309 + 1
    let r := shortestDecimal m e dp 17 1
    let ds := Nat.toDigits 10 r.1
    (trimZeros ds, r.2 + (ds.length : Int))

/-- The digit at index `i` of `ds`, `0` outside of it. -/
def digitAt (ds : List Char) (i : Int) : Char :=
  if 0 ≤ i then ds.getD i.toNat '0' else '0'

/-- The format `%e` with the shortest precision (`fmtE`). -/
def fmtE (ds : List Char) (dp : Int) : List Char :=
  let exp : Int := if ds = [] then 0 else dp - 1
  let mantissa := match ds with
    | [] => ['0']
    | [d] => [d]
    | d :: rest => d :: '.' :: rest
  let sign := if exp < 0 then '-' else '+'
  let digits := Nat.toDigits 10 exp.natAbs
  mantissa ++ ['e', sign] ++ (if exp.natAbs < 10 then '0' :: digits else digits)

/-- The format `%f` with the shortest precision (`fmtF`). -/
def fmtF (ds : List Char) (dp : Int) : List Char :=
  let prec := ((ds.length : Int) - dp).toNat
  let intPart := if 0 < dp then (List.range dp.toNat).map (fun i => digitAt ds i) else ['0']
  let fracPart := if 0 < prec then '.' :: (List.range prec).map (fun i => digitAt ds (dp + i))
                  else []
  intPart ++ fracPart

/-- The text written by `fmt.Sprintf("%g", x)`: shortest digits, exponent form when the
decimal exponent is below -4 or at least 6. -/
def formatG : Float64 → String
  | Float64.nan => "NaN"
  | Float64.inf false => "+Inf"
  | Float64.inf true => "-Inf"
  | Float64.finite neg m e =>
    let r := shortestDigits m e
    let exp := r.2 - 1
    let body := if exp < -4 ∨ 6 ≤ exp then fmtE r.1 r.2 else fmtF r.1 r.2
    String.mk (if neg then '-' :: body else body)


/-! ## encoding/json: decoding into the argument structs -/

/-- Does the object key `key` select the struct field tagged `json:"name"`? The exact
name does, and so does any key equal to it up to case. (The names used by this program
contain no `k` and no `s`, the two ASCII letters that also have a non-ASCII case
variant.) -/
def keyMatches (name key : List Char) : Bool :=
  key = name || key.map Char.toUpper = name.map Char.toUpper

/-- The anonymous struct of the `say_hello` case (lines 73-75). -/
structure SayHelloArgs where
  Name : String
deriving DecidableEq, Repr

/-- The anonymous struct of the `calculate_sum` case (lines 83-86). -/
structure CalculateSumArgs where
  A : Float64
  B : Float64
deriving DecidableEq, Repr

/-- Storing a JSON value into a `string` field (`literalStore`): the new content of the
field and whether a type error is saved. `null` leaves the field as it is. -/
def storeString (old : String) : JValue → String × Bool
  | JValue.null => (old, false)
  | JValue.string s => (String.mk s, false)
  | _ => (old, true)

/-- Storing a JSON value into a `float64` field: `null` leaves the field as it is, a
number is parsed, and a number out of range or any other value saves a type error. -/
def storeFloat64 (old : Float64) : JValue → Float64 × Bool
  | JValue.null => (old, false)
  | JValue.number lit =>
    match parseFloat lit with
    | some x => (x, false)
    | none => (old, true)
  | _ => (old, true)

/-- One member of the object decoded into the `say_hello` struct; the second component
records a saved error. Members with another key are skipped. -/
def sayHelloMember (acc : SayHelloArgs × Bool) (member : List Char × JValue) :
    SayHelloArgs × Bool :=
  if keyMatches "name".data member.1 then
    let r := storeString acc.1.Name member.2
    ({ Name := r.1 }, acc.2 || r.2)
  else acc

/-- One member of the object decoded into the `calculate_sum` struct. -/
def calculateSumMember (acc : CalculateSumArgs × Bool) (member : List Char × JValue) :
    CalculateSumArgs × Bool :=
  if keyMatches "a".data member.1 then
    let r := storeFloat64 acc.1.A member.2
    ({ acc.1 with A := r.1 }, acc.2 || r.2)
  else if keyMatches "b".data member.1 then
    let r := storeFloat64 acc.1.B member.2
    ({ acc.1 with B := r.1 }, acc.2 || r.2)
  else acc

/-- The call `json.Unmarshal([]byte(arguments), &args)` of line 76 on a zero `args`:
`none` when it returns an error (a syntax error, a top-level value that is neither an
object nor `null`, or a saved type error), the decoded struct otherwise. -/
def unmarshalSayHello (arguments : String) : Option SayHelloArgs :=
  match parseJSON arguments with
  | none => none
  | some JValue.null => some { Name := "" }
  | some (JValue.object members) =>
    let r := members.foldl sayHelloMember ({ Name := "" }, false)
    if r.2 then none else some r.1
  | some _ => none

/-- The call `json.Unmarshal([]byte(arguments), &args)` of line 87 on a zero `args`. -/
def unmarshalCalculateSum (arguments : String) : Option CalculateSumArgs :=
  match parseJSON arguments with
  | none => none
  | some JValue.null => some { A := Float64.zero, B := Float64.zero }
  | some (JValue.object members) =>
    let r := members.foldl calculateSumMember ({ A := Float64.zero, B := Float64.zero }, false)
    if r.2 then none else some r.1
  | some _ => none

/-! ## The tools -/

/-- A property of a tool's parameter schema. -/
structure ToolProperty where
  name : String
  type : String
  description : String
deriving DecidableEq, Repr

/-- The fields of `openai.ChatCompletionToolParam` that `GetToolsIndex` fills. -/
structure ToolParam where
  Name : String
  Description : String
  properties : List ToolProperty
  required : List String
deriving DecidableEq, Repr

/-- The tools declared to the model (lines 25-68). -/
def GetToolsIndex : List ToolParam :=
  [ { Name := "calculate_sum"
      Description := "Calculate the sum of two numbers"
      properties := [⟨"a", "number", "The first number"⟩, ⟨"b", "number", "The second number"⟩]
      required := ["a", "b"] },
    { Name := "say_hello"
      Description := "Say hello to the given name"
      properties := [⟨"name", "string", "The name to greet"⟩]
      required := ["name"] } ]

/-- The function `executeFunction` (lines 70-96). -/
def executeFunction (functionName : String) (arguments : String) : String :=
  if functionName = "say_hello" then
    match unmarshalSayHello arguments with
    | none => "\x7b\"error\": \"Invalid arguments for say_hello\"\x7d"
    | some args =>
      let hello := "👋 Hello, " ++ args.Name ++ "!🙂"
      "\x7b\"message\": \"" ++ hello ++ "\"\x7d"
  else if functionName = "calculate_sum" then
    match unmarshalCalculateSum arguments with
    | none => "\x7b\"error\": \"Invalid arguments for calculate_sum\"\x7d"
    | some args =>
      let sum := args.A.add args.B
      "\x7b\"result\": " ++ formatG sum ++ "\x7d"
  else "\x7b\"error\": \"Unknown function\"\x7d"

/-! ## The loop of `main` -/

/-- The loop of lines 172-182: the parameter built from a received tool call. -/
def toToolCallParam (toolCall : ToolCall) : ToolCallParam :=
  { ID := toolCall.ID, Type_ := "function", Name := toolCall.Name,
    Arguments := toolCall.Arguments }

/-- The loop of lines 199-227: every tool call is executed in turn, its result is
appended to the messages and a record to the history. -/
def processToolCalls (completionDuration : Int) :
    List ToolCall → List Message → List FunctionCallRecord →
    List Message × List FunctionCallRecord
  | [], messages, history => (messages, history)
  | toolCall :: rest, messages, history =>
    let functionName := toolCall.Name
    let functionArgs := toolCall.Arguments
    let callID := toolCall.ID
    let resultContent := executeFunction functionName functionArgs
    processToolCalls completionDuration rest
      (messages ++ [Message.tool resultContent toolCall.ID])
      (history ++ [{ FunctionName := functionName, Arguments := functionArgs,
                     Result := resultContent, CallID := callID,
                     Duration := completionDuration }])

/-- The body of the `for !stopped` loop (lines 140-246). -/
def loopBody (st : LoopState) (x : Exchange) : Outcome :=
  match x.response with
  | Except.error err => Outcome.returned err st
  | Except.ok completion =>
    let completionDuration := timeSince x.startTime x.sinceTime
    match completion.Choices with
    | [] => Outcome.panicked st
    | choice :: _ =>
      let finishReason := choice.FinishReason
      if finishReason = "tool_calls" then
        let detectedToolCalls := choice.ToolCalls
        if 0 < detectedToolCalls.length then
          let toolCallParams := detectedToolCalls.map toToolCallParam
          let assistantMessage := Message.assistant none toolCallParams
          let messages := st.messages ++ [assistantMessage]
          let r := processToolCalls completionDuration detectedToolCalls messages
                     st.functionCallHistory
          Outcome.next { st with messages := r.1, functionCallHistory := r.2 }
        else Outcome.next st
      else if finishReason = "stop" then
        let assistantMessage := choice.Content
        Outcome.next { st with stopped := true,
                               messages := st.messages ++ [Message.assistant (some assistantMessage) []] }
      else Outcome.next { st with stopped := true }

/-- How a run over the supplied exchanges ends: the loop condition fails (`finished`),
`main` returns on a gateway error, the program panics, or the loop is about to issue a
gateway call for which no exchange is supplied (`awaiting`). -/
inductive RunEnd where
  | finished | returned (err : String) | panicked | awaiting
deriving DecidableEq, Repr

/-- Result of a run: how it ended, the final values of the variables, and the number of
gateway calls issued. -/
structure RunResult where
  ending : RunEnd
  state : LoopState
  gatewayCalls : Nat
deriving DecidableEq, Repr

/-- The loop `for !stopped { ... }` run against the successive exchanges; `calls` counts
the gateway calls already issued. -/
def runLoop : LoopState → List Exchange → Nat → RunResult
  | st, [], calls =>
    if st.stopped then ⟨RunEnd.finished, st, calls⟩ else ⟨RunEnd.awaiting, st, calls⟩
  | st, x :: xs, calls =>
    if st.stopped then ⟨RunEnd.finished, st, calls⟩
    else
      match loopBody st x with
      | Outcome.next st2 => runLoop st2 xs (calls + 1)
      | Outcome.returned err st2 => ⟨RunEnd.returned err, st2, calls + 1⟩
      | Outcome.panicked st2 => ⟨RunEnd.panicked, st2, calls + 1⟩

/-- The states in which the loop issues a gateway call during a run, in order. -/
def gatewayCallStates : LoopState → List Exchange → List LoopState
  | st, [] => if st.stopped then [] else [st]
  | st, x :: xs =>
    if st.stopped then []
    else
      match loopBody st x with
      | Outcome.next st2 => st :: gatewayCallStates st2 xs
      | Outcome.returned _ _ => [st]
      | Outcome.panicked _ => [st]


/-! ## Vocabulary of the statements -/

/-- The error payload returned when the arguments of `tool` cannot be decoded
(lines 77 and 88). -/
def invalidArgumentsPayload (tool : String) : String :=
  "\x7b\"error\": \"Invalid arguments for " ++ tool ++ "\"\x7d"

/-- The value `v` is present (not `null`) and is not of the schema type `type`: not a
string for `string`, not a number within the float64 range for `number`. -/
def wrongType (type : String) (v : JValue) : Prop :=
  v ≠ JValue.null ∧
  (type = "string" → ∀ s, v ≠ JValue.string s) ∧
  (type = "number" → ∀ lit, v = JValue.number lit → parseFloat lit = none)

/-- The tool-result message appended for a tool call (lines 211-217). -/
def toolMessageOf (toolCall : ToolCall) : Message :=
  Message.tool (executeFunction toolCall.Name toolCall.Arguments) toolCall.ID

/-- The record appended for a tool call (lines 220-226). -/
def recordOf (completionDuration : Int) (toolCall : ToolCall) : FunctionCallRecord :=
  { FunctionName := toolCall.Name, Arguments := toolCall.Arguments,
    Result := executeFunction toolCall.Name toolCall.Arguments, CallID := toolCall.ID,
    Duration := completionDuration }

/-- Is the message an assistant turn? -/
def Message.isAssistant : Message → Bool
  | Message.assistant _ _ => true
  | _ => false

/-- Is the message the tool-result turn of the call `id`? -/
def Message.isToolResultFor (id : String) : Message → Bool
  | Message.tool _ toolCallID => toolCallID = id
  | _ => false

/-- The identifiers of the tool calls carried by the assistant turns of a transcript,
in order and with repetitions. -/
def requestIds : List Message → List String
  | [] => []
  | Message.assistant _ toolCalls :: rest => toolCalls.map (fun c => c.ID) ++ requestIds rest
  | _ :: rest => requestIds rest

/-- Number of tool-result turns of `messages` for the call `id`. -/
def toolResultCount (id : String) (messages : List Message) : Nat :=
  messages.countP (Message.isToolResultFor id)

/-- Number of records of the ledger for the call `id`. -/
def ledgerCount (id : String) (history : List FunctionCallRecord) : Nat :=
  history.countP (fun r => r.CallID = id)

/-- The tool-call identifiers of the response of an exchange are pairwise distinct. -/
def uniqueWithinResponse (x : Exchange) : Prop :=
  ∀ completion, x.response = Except.ok completion →
    ∀ choice ∈ completion.Choices, (choice.ToolCalls.map (fun c => c.ID)).Nodup

/-- The messages appended by an iteration that executes `calls`. -/
def blockMessages (b : Int × List ToolCall) : List Message :=
  Message.assistant none (b.2.map toToolCallParam) :: b.2.map toolMessageOf

/-- The messages appended by successive iterations. -/
def blocksMessages : List (Int × List ToolCall) → List Message
  | [] => []
  | b :: bs => blockMessages b ++ blocksMessages bs

/-- The records appended by successive iterations. -/
def blocksRecords : List (Int × List ToolCall) → List FunctionCallRecord
  | [] => []
  | b :: bs => b.2.map (recordOf b.1) ++ blocksRecords bs

/-- Shape of the state while the loop runs: the user turn followed by the messages of the
iterations that executed tool calls, the ledger holding the records of the same
iterations, and no identifier twice within one iteration. -/
def Shaped (userMessage : String) (st : LoopState) : Prop :=
  ∃ blocks : List (Int × List ToolCall),
    st.messages = Message.user userMessage :: blocksMessages blocks ∧
    st.functionCallHistory = blocksRecords blocks ∧
    ∀ b ∈ blocks, (b.2.map (fun c => c.ID)).Nodup

/-! ## Sample inputs -/

/-- The float64 written by a number literal, NaN when it is out of range. -/
def parseOrNaN (s : String) : Float64 := (parseFloat s.data).getD Float64.nan

/-- Two tool calls received in one response; the first has a mistyped argument. -/
def sampleToolCalls : List ToolCall :=
  [ ⟨"call_1", "calculate_sum", "\x7b\"a\":40,\"b\":\"x\"\x7d"⟩,
    ⟨"call_2", "say_hello", "\x7b\"name\":\"Bob\"\x7d"⟩ ]

/-- An exchange whose response requests `sampleToolCalls`. -/
def sampleToolCallsExchange : Exchange :=
  { startTime := 100, response := Except.ok ⟨[⟨"tool_calls", "", sampleToolCalls⟩]⟩,
    sinceTime := 350 }

/-- An exchange whose response is the final answer `42`. -/
def sampleStopExchange : Exchange :=
  { startTime := 400, response := Except.ok ⟨[⟨"stop", "42", []⟩]⟩, sinceTime := 450 }

/-- An exchange whose gateway call fails. -/
def sampleErrorExchange : Exchange :=
  { startTime := 500, response := Except.error "connection refused", sinceTime := 500 }

/-- A running state with one executed tool call. -/
def sampleStateAfterCalls : LoopState :=
  { messages :=
      [ Message.user "hi",
        Message.assistant none [⟨"call_2", "function", "say_hello", "\x7b\"name\":\"Bob\"\x7d"⟩],
        Message.tool "\x7b\"message\": \"👋 Hello, Bob!🙂\"\x7d" "call_2" ],
    functionCallHistory :=
      [⟨"say_hello", "\x7b\"name\":\"Bob\"\x7d", "\x7b\"message\": \"👋 Hello, Bob!🙂\"\x7d", "call_2", 7⟩],
    stopped := false }

/-- An exchange whose response requests the single call `call_2` of `say_hello`. -/
def sampleHelloExchange : Exchange :=
  { startTime := 0,
    response := Except.ok ⟨[⟨"tool_calls", "", [⟨"call_2", "say_hello", "\x7b\"name\":\"Bob\"\x7d"⟩]⟩]⟩,
    sinceTime := 7 }

/-- The state reached when `sampleHelloExchange` is received twice in a row. -/
def sampleStateReusedId : LoopState :=
  { messages :=
      [ Message.user "hi",
        Message.assistant none [⟨"call_2", "function", "say_hello", "\x7b\"name\":\"Bob\"\x7d"⟩],
        Message.tool "\x7b\"message\": \"👋 Hello, Bob!🙂\"\x7d" "call_2",
        Message.assistant none [⟨"call_2", "function", "say_hello", "\x7b\"name\":\"Bob\"\x7d"⟩],
        Message.tool "\x7b\"message\": \"👋 Hello, Bob!🙂\"\x7d" "call_2" ],
    functionCallHistory :=
      [ ⟨"say_hello", "\x7b\"name\":\"Bob\"\x7d", "\x7b\"message\": \"👋 Hello, Bob!🙂\"\x7d", "call_2", 7⟩,
        ⟨"say_hello", "\x7b\"name\":\"Bob\"\x7d", "\x7b\"message\": \"👋 Hello, Bob!🙂\"\x7d", "call_2", 7⟩ ],
    stopped := false }

/-! ## Checks of the models of the standard library -/

/-- With fuel at least `n` the halving count is the integer binary logarithm. -/
theorem log2Aux_spec (fuel n : Nat) (hfuel : n ≤ fuel) (hn : 0 < n) :
    2 ^ log2Aux fuel n ≤ n ∧ n < 2 ^ (log2Aux fuel n + 1) := by
  induction fuel generalizing n with
  | zero => omega
  | succ fuel ih =>
    unfold log2Aux
    by_cases h : n < 2
    · simp only [h, if_true]
      omega
    · simp only [h, if_false]
      have h2 : n / 2 ≤ fuel := by omega
      have h3 : 0 < n / 2 := by omega
      obtain ⟨h4, h5⟩ := ih (n / 2) h2 h3
      rw [pow_succ, pow_succ]
      constructor <;> omega

/-- The fuel of `log2` suffices: `2^(log2 n) ≤ n < 2^(log2 n + 1)`. -/
theorem log2_spec (n : Nat) (hn : 0 < n) : 2 ^ log2 n ≤ n ∧ n < 2 ^ (log2 n + 1) :=
  log2Aux_spec n n (Nat.le_refl n) hn

/-- The parser on known values: `0.1`, the smallest subnormal, the largest finite value
and the first literals that round to zero and to infinity. -/
theorem parseFloat_samples :
    parseFloat "0.1".data = some (Float64.finite false 7205759403792794 (-56)) ∧
    parseFloat "40".data = some (Float64.finite false 5629499534213120 (-47)) ∧
    parseFloat "-0".data = some (Float64.finite true 0 (-1074)) ∧
    parseFloat "5e-324".data = some (Float64.finite false 1 (-1074)) ∧
    parseFloat "2e-324".data = some (Float64.finite false 0 (-1074)) ∧
    parseFloat "1.7976931348623157e308".data = some (Float64.finite false 9007199254740991 971) ∧
    parseFloat "1.7976931348623159e308".data = none ∧
    parseFloat "1e309".data = none := by
  decide!

/-- The formatter on known values, with the switch to the exponent form. -/
theorem formatG_samples :
    (["0", "-0", "1", "42", "0.1", "0.5", "100000", "1000000", "1234567", "0.0001", "0.00001",
      "123.456", "1e21", "1e100", "5e-324", "1.7976931348623157e308", "-2.5e-3"].map
        (fun s => formatG (parseOrNaN s))) =
     ["0", "-0", "1", "42", "0.1", "0.5", "100000", "1e+06", "1.234567e+06", "0.0001", "1e-05",
      "123.456", "1e+21", "1e+100", "5e-324", "1.7976931348623157e+308", "-0.0025"] := by
  decide!

/-- The addition on known values: rounding, signed zeros, absorption and overflow. -/
theorem add_samples :
    formatG ((parseOrNaN "0.1").add (parseOrNaN "0.2")) = "0.30000000000000004" ∧
    formatG ((parseOrNaN "40").add (parseOrNaN "2")) = "42" ∧
    formatG ((parseOrNaN "1").add (parseOrNaN "-1")) = "0" ∧
    formatG ((parseOrNaN "-0").add (parseOrNaN "-0")) = "-0" ∧
    formatG ((parseOrNaN "1e16").add (parseOrNaN "1")) = "1e+16" ∧
    formatG ((parseOrNaN "1e308").add (parseOrNaN "1e308")) = "+Inf" := by
  decide!

/-- The reader on a text with white space, escapes, a surrogate pair and nesting, and on
texts that `checkValid` rejects. -/
theorem parseJSON_samples :
    parseJSON " \x7b\"k\" : [1.5e3, \"a\\u0041\\n\\ud83d\\ude42\", null, true, \x7b\x7d]\x7d\n" =
      some (JValue.object [("k".data, JValue.array
        [ JValue.number "1.5e3".data, JValue.string "aA\n🙂".data, JValue.null,
          JValue.bool true, JValue.object [] ])]) ∧
    parseJSON "" = none ∧ parseJSON "01" = none ∧ parseJSON "[1,]" = none ∧
    parseJSON "\x7b\"a\":1" = none ∧ parseJSON "\"a\tb\"" = none ∧ parseJSON "1 2" = none ∧
    parseJSON "nul" = none ∧ parseJSON "+1" = none := by
  refine ⟨rfl, rfl, rfl, rfl, rfl, rfl, rfl, rfl, rfl⟩

/-! ## Properties of the loop body -/

theorem processToolCalls_eq (d : Int) (calls : List ToolCall) (messages : List Message)
    (history : List FunctionCallRecord) :
    processToolCalls d calls messages history =
      (messages ++ calls.map toolMessageOf, history ++ calls.map (recordOf d)) := by
  induction calls generalizing messages history with
  | nil => simp [processToolCalls]
  | cons c cs ih =>
    simp [processToolCalls, ih, toolMessageOf, recordOf, List.append_assoc]

theorem loopBody_tool_calls_eq (st : LoopState) (x : Exchange) (completion : Completion)
    (choice : Choice) (others : List Choice)
    (hresp : x.response = Except.ok completion)
    (hchoices : completion.Choices = choice :: others)
    (hreason : choice.FinishReason = "tool_calls")
    (hcalls : choice.ToolCalls ≠ []) :
    loopBody st x = Outcome.next
      { messages := st.messages
          ++ [Message.assistant none (choice.ToolCalls.map toToolCallParam)]
          ++ choice.ToolCalls.map toolMessageOf,
        functionCallHistory := st.functionCallHistory
          ++ choice.ToolCalls.map (recordOf (timeSince x.startTime x.sinceTime)),
        stopped := st.stopped } := by
  have hlen : 0 < choice.ToolCalls.length := List.length_pos.mpr hcalls
  simp [loopBody, hresp, hchoices, hreason, hlen, processToolCalls_eq]

theorem loopBody_empty_tool_calls_eq (st : LoopState) (x : Exchange) (completion : Completion)
    (choice : Choice) (others : List Choice)
    (hresp : x.response = Except.ok completion)
    (hchoices : completion.Choices = choice :: others)
    (hreason : choice.FinishReason = "tool_calls")
    (hcalls : choice.ToolCalls = []) :
    loopBody st x = Outcome.next st := by
  simp [loopBody, hresp, hchoices, hreason, hcalls]

theorem loopBody_stop_eq (st : LoopState) (x : Exchange) (completion : Completion)
    (choice : Choice) (others : List Choice)
    (hresp : x.response = Except.ok completion)
    (hchoices : completion.Choices = choice :: others)
    (hreason : choice.FinishReason = "stop") :
    loopBody st x = Outcome.next
      { messages := st.messages ++ [Message.assistant (some choice.Content) []],
        functionCallHistory := st.functionCallHistory,
        stopped := true } := by
  have hne : ¬ ("stop" = "tool_calls") := by decide
  simp [loopBody, hresp, hchoices, hreason, hne]

theorem loopBody_other_eq (st : LoopState) (x : Exchange) (completion : Completion)
    (choice : Choice) (others : List Choice)
    (hresp : x.response = Except.ok completion)
    (hchoices : completion.Choices = choice :: others)
    (h1 : choice.FinishReason ≠ "tool_calls") (h2 : choice.FinishReason ≠ "stop") :
    loopBody st x = Outcome.next { st with stopped := true } := by
  simp [loopBody, hresp, hchoices, h1, h2]


/-! ## The claims about one iteration -/

/-- C1: in a running loop, a response with finish reason `tool_calls` and a non-empty
list of tool calls appends to the transcript one assistant turn carrying every call with
its id, name and arguments, then one tool-result turn per call in the received order,
appends one record per call to the ledger in the same order, and leaves `stopped` false
(the next iteration issues a gateway call), whatever `executeFunction` returned. -/
theorem tool_calls_iteration (st : LoopState) (x : Exchange) (completion : Completion)
    (choice : Choice) (others : List Choice)
    (hrunning : st.stopped = false)
    (hresp : x.response = Except.ok completion)
    (hchoices : completion.Choices = choice :: others)
    (hreason : choice.FinishReason = "tool_calls")
    (hcalls : choice.ToolCalls ≠ []) :
    loopBody st x = Outcome.next
      { messages := st.messages
          ++ [Message.assistant none (choice.ToolCalls.map (fun c =>
                { ID := c.ID, Type_ := "function", Name := c.Name, Arguments := c.Arguments }))]
          ++ choice.ToolCalls.map (fun c =>
                Message.tool (executeFunction c.Name c.Arguments) c.ID),
        functionCallHistory := st.functionCallHistory
          ++ choice.ToolCalls.map (fun c =>
                { FunctionName := c.Name, Arguments := c.Arguments,
                  Result := executeFunction c.Name c.Arguments, CallID := c.ID,
                  Duration := timeSince x.startTime x.sinceTime }),
        stopped := false } := by
  rw [loopBody_tool_calls_eq st x completion choice others hresp hchoices hreason hcalls, hrunning]
  rfl

/-- C1, at the two tool calls of `sampleToolCalls` received in the initial state. -/
theorem tool_calls_iteration_witness :
    loopBody (initialState "Make the sum of 40 and 2") sampleToolCallsExchange =
      Outcome.next
        { messages :=
            [ Message.user "Make the sum of 40 and 2",
              Message.assistant none
                [ ⟨"call_1", "function", "calculate_sum", "\x7b\"a\":40,\"b\":\"x\"\x7d"⟩,
                  ⟨"call_2", "function", "say_hello", "\x7b\"name\":\"Bob\"\x7d"⟩ ],
              Message.tool "\x7b\"error\": \"Invalid arguments for calculate_sum\"\x7d" "call_1",
              Message.tool "\x7b\"message\": \"👋 Hello, Bob!🙂\"\x7d" "call_2" ],
          functionCallHistory :=
            [ ⟨"calculate_sum", "\x7b\"a\":40,\"b\":\"x\"\x7d",
                "\x7b\"error\": \"Invalid arguments for calculate_sum\"\x7d", "call_1", 250⟩,
              ⟨"say_hello", "\x7b\"name\":\"Bob\"\x7d",
                "\x7b\"message\": \"👋 Hello, Bob!🙂\"\x7d", "call_2", 250⟩ ],
          stopped := false } := by
  rw [tool_calls_iteration (initialState "Make the sum of 40 and 2") sampleToolCallsExchange
    ⟨[⟨"tool_calls", "", sampleToolCalls⟩]⟩ ⟨"tool_calls", "", sampleToolCalls⟩ []
    rfl rfl rfl rfl (by decide)]
  decide

/-- C8: a response with finish reason `stop` appends one assistant turn holding the
content and no tool call, leaves the ledger as it is and sets `stopped`; the loop then
ends without a further gateway call. -/
theorem stop_iteration (st : LoopState) (x : Exchange) (completion : Completion)
    (choice : Choice) (others : List Choice) (xs : List Exchange) (calls : Nat)
    (hrunning : st.stopped = false)
    (hresp : x.response = Except.ok completion)
    (hchoices : completion.Choices = choice :: others)
    (hreason : choice.FinishReason = "stop") :
    loopBody st x = Outcome.next
      { messages := st.messages ++ [Message.assistant (some choice.Content) []],
        functionCallHistory := st.functionCallHistory,
        stopped := true } ∧
    runLoop st (x :: xs) calls =
      { ending := RunEnd.finished,
        state := { messages := st.messages ++ [Message.assistant (some choice.Content) []],
                   functionCallHistory := st.functionCallHistory,
                   stopped := true },
        gatewayCalls := calls + 1 } := by
  have h := loopBody_stop_eq st x completion choice others hresp hchoices hreason
  refine ⟨h, ?_⟩
  cases xs <;> simp [runLoop, hrunning, h]

/-- C8, at the final answer `42` received in the initial state, with one more exchange
left unused. -/
theorem stop_iteration_witness :
    loopBody (initialState "hi") sampleStopExchange = Outcome.next
      { messages := [Message.user "hi"] ++ [Message.assistant (some "42") []],
        functionCallHistory := [],
        stopped := true } ∧
    runLoop (initialState "hi") [sampleStopExchange, sampleToolCallsExchange] 0 =
      { ending := RunEnd.finished,
        state := { messages := [Message.user "hi"] ++ [Message.assistant (some "42") []],
                   functionCallHistory := [],
                   stopped := true },
        gatewayCalls := 0 + 1 } :=
  stop_iteration (initialState "hi") sampleStopExchange ⟨[⟨"stop", "42", []⟩]⟩
    ⟨"stop", "42", []⟩ [] [sampleToolCallsExchange] 0 rfl rfl rfl rfl

/-- C4: when the gateway call fails, `main` returns in that iteration: no further
gateway call is issued, and the transcript and the ledger are the ones the call was made
with; a failure on the first call leaves the single user turn and an empty ledger. -/
theorem gateway_error_iteration (st : LoopState) (x : Exchange) (err : String)
    (xs : List Exchange) (calls : Nat) (userMessage : String)
    (hrunning : st.stopped = false)
    (hresp : x.response = Except.error err) :
    loopBody st x = Outcome.returned err st ∧
    runLoop st (x :: xs) calls =
      { ending := RunEnd.returned err, state := st, gatewayCalls := calls + 1 } ∧
    runLoop (initialState userMessage) (x :: xs) 0 =
      { ending := RunEnd.returned err,
        state := { messages := [Message.user userMessage], functionCallHistory := [],
                   stopped := false },
        gatewayCalls := 1 } := by
  have h : ∀ s, loopBody s x = Outcome.returned err s := by
    intro s
    simp [loopBody, hresp]
  refine ⟨h st, ?_, ?_⟩
  · simp [runLoop, hrunning, h]
  · simp [runLoop, initialState, h]

/-- C4, at a gateway error on the first call and after one executed tool call. -/
theorem gateway_error_iteration_witness :
    runLoop sampleStateAfterCalls (sampleErrorExchange :: [sampleStopExchange]) 1 =
      { ending := RunEnd.returned "connection refused", state := sampleStateAfterCalls,
        gatewayCalls := 1 + 1 } ∧
    runLoop (initialState "hi") (sampleErrorExchange :: [sampleStopExchange]) 0 =
      { ending := RunEnd.returned "connection refused",
        state := { messages := [Message.user "hi"], functionCallHistory := [],
                   stopped := false },
        gatewayCalls := 1 } :=
  (gateway_error_iteration sampleStateAfterCalls sampleErrorExchange "connection refused"
    [sampleStopExchange] 1 "hi" rfl rfl).2

/-- C10: every record appended to the ledger by one iteration has as `Duration` the
clock reading taken right after the completion returned minus the reading taken at the
start of the iteration, whichever tool calls the response carries; the records of one
response therefore share their `Duration`. -/
theorem iteration_duration (st st2 : LoopState) (x : Exchange)
    (hnext : loopBody st x = Outcome.next st2) :
    ∃ appended : List FunctionCallRecord,
      st2.functionCallHistory = st.functionCallHistory ++ appended ∧
      (∀ r ∈ appended, r.Duration = (x.sinceTime : Int) - (x.startTime : Int)) ∧
      (∀ r1 ∈ appended, ∀ r2 ∈ appended, r1.Duration = r2.Duration) := by
  have key : ∃ appended : List FunctionCallRecord,
      st2.functionCallHistory = st.functionCallHistory ++ appended ∧
      (∀ r ∈ appended, r.Duration = (x.sinceTime : Int) - (x.startTime : Int)) := by
    cases hresp : x.response with
    | error err => simp [loopBody, hresp] at hnext
    | ok completion =>
      cases hchoices : completion.Choices with
      | nil => simp [loopBody, hresp, hchoices] at hnext
      | cons choice others =>
        by_cases h1 : choice.FinishReason = "tool_calls"
        · by_cases h2 : choice.ToolCalls = []
          · rw [loopBody_empty_tool_calls_eq st x completion choice others hresp hchoices h1 h2]
              at hnext
            cases hnext
            exact ⟨[], by simp, by simp⟩
          · rw [loopBody_tool_calls_eq st x completion choice others hresp hchoices h1 h2]
              at hnext
            cases hnext
            refine ⟨choice.ToolCalls.map (recordOf (timeSince x.startTime x.sinceTime)), rfl, ?_⟩
            intro r hr
            obtain ⟨c, _, rfl⟩ := List.mem_map.mp hr
            rfl
        · by_cases h2 : choice.FinishReason = "stop"
          · rw [loopBody_stop_eq st x completion choice others hresp hchoices h2] at hnext
            cases hnext
            exact ⟨[], by simp, by simp⟩
          · rw [loopBody_other_eq st x completion choice others hresp hchoices h1 h2] at hnext
            cases hnext
            exact ⟨[], by simp, by simp⟩
  obtain ⟨appended, h1, h2⟩ := key
  exact ⟨appended, h1, h2, fun r1 hr1 r2 hr2 => by rw [h2 r1 hr1, h2 r2 hr2]⟩


/-! ## Properties of `executeFunction` -/

theorem toolNames_eq : GetToolsIndex.map (fun t => t.Name) = ["calculate_sum", "say_hello"] := by
  decide

theorem helloPayload_ne_unknown (n : String) :
    "\x7b\"message\": \"" ++ ("👋 Hello, " ++ n ++ "!🙂") ++ "\"\x7d" ≠
      "\x7b\"error\": \"Unknown function\"\x7d" := by
  intro h
  have h2 := congrArg String.data h
  simp at h2

theorem resultPayload_ne_unknown (g : String) :
    "\x7b\"result\": " ++ g ++ "\x7d" ≠ "\x7b\"error\": \"Unknown function\"\x7d" := by
  intro h
  have h2 := congrArg String.data h
  simp at h2

theorem executeFunction_say_hello (arguments : String) :
    executeFunction "say_hello" arguments =
      match unmarshalSayHello arguments with
      | none => "\x7b\"error\": \"Invalid arguments for say_hello\"\x7d"
      | some args => "\x7b\"message\": \"" ++ ("👋 Hello, " ++ args.Name ++ "!🙂") ++ "\"\x7d" := by
  unfold executeFunction
  simp only [if_true]

theorem executeFunction_calculate_sum (arguments : String) :
    executeFunction "calculate_sum" arguments =
      match unmarshalCalculateSum arguments with
      | none => "\x7b\"error\": \"Invalid arguments for calculate_sum\"\x7d"
      | some args => "\x7b\"result\": " ++ formatG (args.A.add args.B) ++ "\x7d" := by
  unfold executeFunction
  have h : ¬ ("calculate_sum" = "say_hello") := by decide
  simp only [if_neg h, if_true]

theorem sayHello_error_sticks (ms : List (List Char × JValue)) (a : SayHelloArgs) :
    (ms.foldl sayHelloMember (a, true)).2 = true := by
  induction ms generalizing a with
  | nil => rfl
  | cons m ms ih =>
    simp only [List.foldl_cons]
    unfold sayHelloMember
    split
    · simp only [Bool.true_or]; exact ih _
    · exact ih _

theorem calculateSum_error_sticks (ms : List (List Char × JValue)) (a : CalculateSumArgs) :
    (ms.foldl calculateSumMember (a, true)).2 = true := by
  induction ms generalizing a with
  | nil => rfl
  | cons m ms ih =>
    simp only [List.foldl_cons]
    unfold calculateSumMember
    split
    · simp only [Bool.true_or]; exact ih _
    · split
      · simp only [Bool.true_or]; exact ih _
      · exact ih _

theorem storeString_error (old : String) (v : JValue) (h1 : v ≠ JValue.null)
    (h2 : ∀ s, v ≠ JValue.string s) : (storeString old v).2 = true := by
  cases v with
  | null => exact absurd rfl h1
  | string s => exact absurd rfl (h2 s)
  | _ => rfl

theorem storeFloat64_error (old : Float64) (v : JValue) (h1 : v ≠ JValue.null)
    (h2 : ∀ lit, v = JValue.number lit → parseFloat lit = none) :
    (storeFloat64 old v).2 = true := by
  cases v with
  | null => exact absurd rfl h1
  | number lit => simp [storeFloat64, h2 lit rfl]
  | _ => rfl

theorem sayHello_mistyped (ms : List (List Char × JValue)) (k : List Char) (v : JValue)
    (acc : SayHelloArgs × Bool)
    (hmem : (k, v) ∈ ms) (hkey : keyMatches "name".data k = true)
    (h1 : v ≠ JValue.null) (h2 : ∀ s, v ≠ JValue.string s) :
    (ms.foldl sayHelloMember acc).2 = true := by
  induction ms generalizing acc with
  | nil => cases hmem
  | cons m ms ih =>
    simp only [List.foldl_cons]
    rcases List.mem_cons.mp hmem with h | h
    · subst h
      have hm : sayHelloMember acc (k, v) = ((sayHelloMember acc (k, v)).1, true) := by
        unfold sayHelloMember
        simp only [hkey, if_true, storeString_error _ v h1 h2, Bool.or_true]
      rw [hm]
      exact sayHello_error_sticks ms _
    · exact ih _ h

theorem calculateSum_mistyped (ms : List (List Char × JValue)) (k : List Char) (v : JValue)
    (acc : CalculateSumArgs × Bool)
    (hmem : (k, v) ∈ ms)
    (hkey : keyMatches "a".data k = true ∨ keyMatches "b".data k = true)
    (h1 : v ≠ JValue.null)
    (h2 : ∀ lit, v = JValue.number lit → parseFloat lit = none) :
    (ms.foldl calculateSumMember acc).2 = true := by
  induction ms generalizing acc with
  | nil => cases hmem
  | cons m ms ih =>
    simp only [List.foldl_cons]
    rcases List.mem_cons.mp hmem with h | h
    · subst h
      have hm : calculateSumMember acc (k, v) = ((calculateSumMember acc (k, v)).1, true) := by
        unfold calculateSumMember
        by_cases ha : keyMatches "a".data k = true
        · simp only [ha, if_true, storeFloat64_error _ v h1 h2, Bool.or_true]
        · have hb : keyMatches "b".data k = true := hkey.resolve_left ha
          simp only [ha, hb, if_true, storeFloat64_error _ v h1 h2, Bool.or_true]
          simp
      rw [hm]
      exact calculateSum_error_sticks ms _
    · exact ih _ h

theorem unmarshalSayHello_mistyped (arguments : String) (ms : List (List Char × JValue))
    (k : List Char) (v : JValue)
    (hparse : parseJSON arguments = some (JValue.object ms))
    (hmem : (k, v) ∈ ms) (hkey : keyMatches "name".data k = true)
    (h1 : v ≠ JValue.null) (h2 : ∀ s, v ≠ JValue.string s) :
    unmarshalSayHello arguments = none := by
  unfold unmarshalSayHello
  simp only [hparse, sayHello_mistyped ms k v _ hmem hkey h1 h2, if_true]

theorem unmarshalCalculateSum_mistyped (arguments : String) (ms : List (List Char × JValue))
    (k : List Char) (v : JValue)
    (hparse : parseJSON arguments = some (JValue.object ms))
    (hmem : (k, v) ∈ ms)
    (hkey : keyMatches "a".data k = true ∨ keyMatches "b".data k = true)
    (h1 : v ≠ JValue.null)
    (h2 : ∀ lit, v = JValue.number lit → parseFloat lit = none) :
    unmarshalCalculateSum arguments = none := by
  unfold unmarshalCalculateSum
  simp only [hparse, calculateSum_mistyped ms k v _ hmem hkey h1 h2, if_true]

theorem unmarshal_not_object (arguments : String) (v : JValue)
    (hparse : parseJSON arguments = some v) (h1 : v ≠ JValue.null)
    (h2 : ∀ ms, v ≠ JValue.object ms) :
    unmarshalSayHello arguments = none ∧ unmarshalCalculateSum arguments = none := by
  unfold unmarshalSayHello unmarshalCalculateSum
  rw [hparse]
  cases v with
  | null => exact absurd rfl h1
  | object ms => exact absurd rfl (h2 ms)
  | _ => exact ⟨rfl, rfl⟩

theorem unmarshal_syntax_error (arguments : String) (hparse : parseJSON arguments = none) :
    unmarshalSayHello arguments = none ∧ unmarshalCalculateSum arguments = none := by
  unfold unmarshalSayHello unmarshalCalculateSum
  rw [hparse]
  exact ⟨rfl, rfl⟩


theorem helloPayload_ne_invalid (n : String) :
    "\x7b\"message\": \"" ++ ("👋 Hello, " ++ n ++ "!🙂") ++ "\"\x7d" ≠
      "\x7b\"error\": \"Invalid arguments for say_hello\"\x7d" := by
  intro h
  have h2 := congrArg String.data h
  simp at h2

theorem resultPayload_ne_invalid (g : String) :
    "\x7b\"result\": " ++ g ++ "\x7d" ≠ "\x7b\"error\": \"Invalid arguments for calculate_sum\"\x7d" := by
  intro h
  have h2 := congrArg String.data h
  simp at h2

theorem storeString_error_inv (old : String) (v : JValue)
    (h : (storeString old v).2 = true) : v ≠ JValue.null ∧ ∀ s, v ≠ JValue.string s := by
  cases v <;> simp [storeString] at h ⊢

theorem storeFloat64_error_inv (old : Float64) (v : JValue)
    (h : (storeFloat64 old v).2 = true) :
    v ≠ JValue.null ∧ ∀ lit, v = JValue.number lit → parseFloat lit = none := by
  cases v with
  | null => simp [storeFloat64] at h
  | number l =>
    refine ⟨fun e => JValue.noConfusion e, ?_⟩
    intro lit e
    cases e
    cases hp : parseFloat l with
    | none => rfl
    | some x => simp [storeFloat64, hp] at h
  | _ => exact ⟨fun e => JValue.noConfusion e, fun lit e => JValue.noConfusion e⟩

theorem sayHello_error_source (ms : List (List Char × JValue)) (acc : SayHelloArgs × Bool)
    (h : (ms.foldl sayHelloMember acc).2 = true) :
    acc.2 = true ∨ ∃ k v, (k, v) ∈ ms ∧ keyMatches "name".data k = true ∧
      v ≠ JValue.null ∧ ∀ s, v ≠ JValue.string s := by
  induction ms generalizing acc with
  | nil => exact Or.inl h
  | cons m ms ih =>
    simp only [List.foldl_cons] at h
    rcases ih _ h with h1 | ⟨k, v, hmem, hrest⟩
    · by_cases hk : keyMatches "name".data m.1 = true
      · simp only [sayHelloMember, hk, if_true, Bool.or_eq_true] at h1
        rcases h1 with h1 | h1
        · exact Or.inl h1
        · exact Or.inr ⟨m.1, m.2, List.mem_cons_self _ _, hk, storeString_error_inv _ _ h1⟩
      · simp only [sayHelloMember, hk] at h1
        exact Or.inl h1
    · exact Or.inr ⟨k, v, List.mem_cons_of_mem _ hmem, hrest⟩

theorem calculateSum_error_source (ms : List (List Char × JValue))
    (acc : CalculateSumArgs × Bool)
    (h : (ms.foldl calculateSumMember acc).2 = true) :
    acc.2 = true ∨ ∃ k v, (k, v) ∈ ms ∧
      ((keyMatches "a".data k = true ∨ keyMatches "b".data k = true) ∧
      v ≠ JValue.null ∧ ∀ lit, v = JValue.number lit → parseFloat lit = none) := by
  induction ms generalizing acc with
  | nil => exact Or.inl h
  | cons m ms ih =>
    simp only [List.foldl_cons] at h
    rcases ih _ h with h1 | ⟨k, v, hmem, hrest⟩
    · by_cases ha : keyMatches "a".data m.1 = true
      · simp only [calculateSumMember, ha, if_true, Bool.or_eq_true] at h1
        rcases h1 with h1 | h1
        · exact Or.inl h1
        · exact Or.inr ⟨m.1, m.2, List.mem_cons_self _ _, Or.inl ha,
            storeFloat64_error_inv _ _ h1⟩
      · by_cases hb : keyMatches "b".data m.1 = true
        · have haf : keyMatches "a".data m.1 = false := by simpa using ha
          simp only [calculateSumMember, haf, hb, if_true, Bool.false_eq_true, if_false,
            Bool.or_eq_true] at h1
          rcases h1 with h1 | h1
          · exact Or.inl h1
          · exact Or.inr ⟨m.1, m.2, List.mem_cons_self _ _, Or.inr hb,
              storeFloat64_error_inv _ _ h1⟩
        · simp only [calculateSumMember, ha, hb] at h1
          exact Or.inl h1
    · exact Or.inr ⟨k, v, List.mem_cons_of_mem _ hmem, hrest⟩

theorem sayHello_fold_null (ms : List (List Char × JValue)) (acc : SayHelloArgs × Bool)
    (h : ∀ k v, (k, v) ∈ ms → keyMatches "name".data k = true → v = JValue.null) :
    ms.foldl sayHelloMember acc = acc := by
  induction ms generalizing acc with
  | nil => rfl
  | cons m ms ih =>
    simp only [List.foldl_cons]
    have hm : sayHelloMember acc m = acc := by
      by_cases hk : keyMatches "name".data m.1 = true
      · have hv : m.2 = JValue.null := h m.1 m.2 (List.mem_cons_self _ _) hk
        simp [sayHelloMember, hk, hv, storeString]
      · simp [sayHelloMember, hk]
    rw [hm]
    exact ih acc (fun k v hmem => h k v (List.mem_cons_of_mem _ hmem))

theorem calculateSum_fold_null (ms : List (List Char × JValue)) (acc : CalculateSumArgs × Bool)
    (h : ∀ k v, (k, v) ∈ ms → keyMatches "a".data k = true ∨ keyMatches "b".data k = true →
      v = JValue.null) :
    ms.foldl calculateSumMember acc = acc := by
  induction ms generalizing acc with
  | nil => rfl
  | cons m ms ih =>
    simp only [List.foldl_cons]
    have hm : calculateSumMember acc m = acc := by
      by_cases ha : keyMatches "a".data m.1 = true
      · have hv : m.2 = JValue.null := h m.1 m.2 (List.mem_cons_self _ _) (Or.inl ha)
        simp [calculateSumMember, ha, hv, storeFloat64]
      · by_cases hb : keyMatches "b".data m.1 = true
        · have hv : m.2 = JValue.null := h m.1 m.2 (List.mem_cons_self _ _) (Or.inr hb)
          simp [calculateSumMember, ha, hb, hv, storeFloat64]
        · simp [calculateSumMember, ha, hb]
    rw [hm]
    exact ih acc (fun k v hmem => h k v (List.mem_cons_of_mem _ hmem))


theorem unmarshalSayHello_none_inv (arguments : String)
    (h : unmarshalSayHello arguments = none) :
    parseJSON arguments = none ∨
    (∃ v, parseJSON arguments = some v ∧ v ≠ JValue.null ∧ ∀ ms, v ≠ JValue.object ms) ∨
    (∃ ms k v, parseJSON arguments = some (JValue.object ms) ∧ (k, v) ∈ ms ∧
      keyMatches "name".data k = true ∧ v ≠ JValue.null ∧ ∀ s, v ≠ JValue.string s) := by
  unfold unmarshalSayHello at h
  cases hp : parseJSON arguments with
  | none => exact Or.inl rfl
  | some v =>
    rw [hp] at h
    cases v with
    | null => simp at h
    | object ms =>
      right; right
      simp only at h
      by_cases hflag : (ms.foldl sayHelloMember ({ Name := "" }, false)).2 = true
      · rcases sayHello_error_source ms _ hflag with h1 | ⟨k, v, hmem, hrest⟩
        · simp at h1
        · exact ⟨ms, k, v, rfl, hmem, hrest⟩
      · simp [hflag] at h
    | _ =>
      right; left
      exact ⟨_, rfl, fun e => JValue.noConfusion e, fun ms e => JValue.noConfusion e⟩

theorem unmarshalCalculateSum_none_inv (arguments : String)
    (h : unmarshalCalculateSum arguments = none) :
    parseJSON arguments = none ∨
    (∃ v, parseJSON arguments = some v ∧ v ≠ JValue.null ∧ ∀ ms, v ≠ JValue.object ms) ∨
    (∃ ms k v, parseJSON arguments = some (JValue.object ms) ∧ (k, v) ∈ ms ∧
      (keyMatches "a".data k = true ∨ keyMatches "b".data k = true) ∧
      v ≠ JValue.null ∧ ∀ lit, v = JValue.number lit → parseFloat lit = none) := by
  unfold unmarshalCalculateSum at h
  cases hp : parseJSON arguments with
  | none => exact Or.inl rfl
  | some v =>
    rw [hp] at h
    cases v with
    | null => simp at h
    | object ms =>
      right; right
      simp only at h
      by_cases hflag : (ms.foldl calculateSumMember
          ({ A := Float64.zero, B := Float64.zero }, false)).2 = true
      · rcases calculateSum_error_source ms _ hflag with h1 | ⟨k, v, hmem, hrest⟩
        · simp at h1
        · exact ⟨ms, k, v, rfl, hmem, hrest⟩
      · simp [hflag] at h
    | _ =>
      right; left
      exact ⟨_, rfl, fun e => JValue.noConfusion e, fun ms e => JValue.noConfusion e⟩

theorem unmarshalSayHello_null_fields (arguments : String) (ms : List (List Char × JValue))
    (hparse : parseJSON arguments = some (JValue.object ms))
    (h : ∀ k v, (k, v) ∈ ms → keyMatches "name".data k = true → v = JValue.null) :
    unmarshalSayHello arguments = some { Name := "" } := by
  unfold unmarshalSayHello
  simp [hparse, sayHello_fold_null ms _ h]

theorem unmarshalCalculateSum_null_fields (arguments : String)
    (ms : List (List Char × JValue))
    (hparse : parseJSON arguments = some (JValue.object ms))
    (h : ∀ k v, (k, v) ∈ ms → keyMatches "a".data k = true ∨ keyMatches "b".data k = true →
      v = JValue.null) :
    unmarshalCalculateSum arguments = some { A := Float64.zero, B := Float64.zero } := by
  unfold unmarshalCalculateSum
  simp [hparse, calculateSum_fold_null ms _ h]

theorem zero_sum_payload :
    "\x7b\"result\": " ++ formatG (Float64.zero.add Float64.zero) ++ "\x7d" = "\x7b\"result\": 0\x7d" := by
  decide!

/-! ## The claims about `executeFunction` -/

/-- C9: `executeFunction` returns the payload `{"error": "Unknown function"}` exactly for
the function names that `GetToolsIndex` does not declare: it returns it for every other
name, whatever the arguments, and never for `calculate_sum` or `say_hello`. -/
theorem unknown_function_iff (functionName arguments : String) :
    executeFunction functionName arguments = "\x7b\"error\": \"Unknown function\"\x7d" ↔
      functionName ∉ GetToolsIndex.map (fun t => t.Name) := by
  rw [toolNames_eq]
  by_cases h1 : functionName = "say_hello"
  · subst h1
    rw [executeFunction_say_hello]
    cases unmarshalSayHello arguments with
    | none => simp; decide
    | some a => simp; exact helloPayload_ne_unknown a.Name
  · by_cases h2 : functionName = "calculate_sum"
    · subst h2
      rw [executeFunction_calculate_sum]
      cases unmarshalCalculateSum arguments with
      | none => simp; decide
      | some a => simp; exact resultPayload_ne_unknown _
    · simp [executeFunction, h1, h2]

/-- C5 (amended): for each tool of `GetToolsIndex`, `executeFunction` returns the tool's
error payload exactly for the arguments that fail to deserialize (a syntax error, or a
top-level value that is neither an object nor `null`) or that give a required field, under
a key equal to its name up to case, a value other than `null` of the wrong type (not a
string for `string`, not a number within the float64 range for `number`). Omission and
`null` are no cause of rejection: for a top-level `null`, and for an object in which
every member naming a field of the tool holds `null` (none at all when the fields are
omitted), the success payload of the zero values is returned. -/
theorem invalid_arguments_rejected (arguments : String) (tool : ToolParam)
    (htool : tool ∈ GetToolsIndex) :
    (parseJSON arguments = none →
      executeFunction tool.Name arguments = invalidArgumentsPayload tool.Name) ∧
    (∀ v, parseJSON arguments = some v → v ≠ JValue.null → (∀ ms, v ≠ JValue.object ms) →
      executeFunction tool.Name arguments = invalidArgumentsPayload tool.Name) ∧
    (∀ ms field key v, parseJSON arguments = some (JValue.object ms) →
      field ∈ tool.properties → field.name ∈ tool.required →
      (key, v) ∈ ms → keyMatches field.name.data key = true → wrongType field.type v →
      executeFunction tool.Name arguments = invalidArgumentsPayload tool.Name) ∧
    (executeFunction tool.Name arguments = invalidArgumentsPayload tool.Name →
      parseJSON arguments = none ∨
      (∃ v, parseJSON arguments = some v ∧ v ≠ JValue.null ∧ ∀ ms, v ≠ JValue.object ms) ∨
      (∃ ms field key v, parseJSON arguments = some (JValue.object ms) ∧
        field ∈ tool.properties ∧ field.name ∈ tool.required ∧
        (key, v) ∈ ms ∧ keyMatches field.name.data key = true ∧ wrongType field.type v)) ∧
    (∀ ms, parseJSON arguments = some (JValue.object ms) →
      (∀ key v, (key, v) ∈ ms → keyMatches "name".data key = true → v = JValue.null) →
      executeFunction "say_hello" arguments = "\x7b\"message\": \"👋 Hello, !🙂\"\x7d") ∧
    (∀ ms, parseJSON arguments = some (JValue.object ms) →
      (∀ key v, (key, v) ∈ ms →
        keyMatches "a".data key = true ∨ keyMatches "b".data key = true → v = JValue.null) →
      executeFunction "calculate_sum" arguments = "\x7b\"result\": 0\x7d") ∧
    (parseJSON arguments = some JValue.null →
      executeFunction "say_hello" arguments = "\x7b\"message\": \"👋 Hello, !🙂\"\x7d" ∧
      executeFunction "calculate_sum" arguments = "\x7b\"result\": 0\x7d") := by
  have hpayload1 : invalidArgumentsPayload "say_hello" =
      "\x7b\"error\": \"Invalid arguments for say_hello\"\x7d" := by decide
  have hpayload2 : invalidArgumentsPayload "calculate_sum" =
      "\x7b\"error\": \"Invalid arguments for calculate_sum\"\x7d" := by decide
  have hzero1 : ∀ ms, parseJSON arguments = some (JValue.object ms) →
      (∀ key v, (key, v) ∈ ms → keyMatches "name".data key = true → v = JValue.null) →
      executeFunction "say_hello" arguments = "\x7b\"message\": \"👋 Hello, !🙂\"\x7d" := by
    intro ms hparse hnull
    rw [executeFunction_say_hello, unmarshalSayHello_null_fields arguments ms hparse hnull]
    decide
  have hzero2 : ∀ ms, parseJSON arguments = some (JValue.object ms) →
      (∀ key v, (key, v) ∈ ms →
        keyMatches "a".data key = true ∨ keyMatches "b".data key = true → v = JValue.null) →
      executeFunction "calculate_sum" arguments = "\x7b\"result\": 0\x7d" := by
    intro ms hparse hnull
    rw [executeFunction_calculate_sum,
      unmarshalCalculateSum_null_fields arguments ms hparse hnull]
    exact zero_sum_payload
  have hzero3 : parseJSON arguments = some JValue.null →
      executeFunction "say_hello" arguments = "\x7b\"message\": \"👋 Hello, !🙂\"\x7d" ∧
      executeFunction "calculate_sum" arguments = "\x7b\"result\": 0\x7d" := by
    intro hparse
    constructor
    · rw [executeFunction_say_hello]
      simp only [unmarshalSayHello, hparse]
      decide
    · rw [executeFunction_calculate_sum]
      simp only [unmarshalCalculateSum, hparse]
      exact zero_sum_payload
  simp only [GetToolsIndex, List.mem_cons, List.mem_singleton, List.not_mem_nil, or_false]
    at htool
  rcases htool with rfl | rfl
  · simp only [hpayload2]
    refine ⟨?_, ?_, ?_, ?_, hzero1, hzero2, hzero3⟩
    · intro h
      rw [executeFunction_calculate_sum, (unmarshal_syntax_error arguments h).2]
    · intro v h h1 h2
      rw [executeFunction_calculate_sum, (unmarshal_not_object arguments v h h1 h2).2]
    · intro ms field key v hparse hfield _ hmem hkey hwrong
      simp only [List.mem_cons, List.mem_singleton, List.not_mem_nil, or_false] at hfield
      have hnum : field.type = "number" := by rcases hfield with rfl | rfl <;> rfl
      have hk : keyMatches "a".data key = true ∨ keyMatches "b".data key = true := by
        rcases hfield with rfl | rfl
        · exact Or.inl hkey
        · exact Or.inr hkey
      rw [executeFunction_calculate_sum,
        unmarshalCalculateSum_mistyped arguments ms key v hparse hmem hk hwrong.1
          (hwrong.2.2 hnum)]
    · intro h
      rw [executeFunction_calculate_sum] at h
      cases hu : unmarshalCalculateSum arguments with
      | some args =>
        rw [hu] at h
        exact absurd h (resultPayload_ne_invalid _)
      | none =>
        rcases unmarshalCalculateSum_none_inv arguments hu with h1 | h1 | h1
        · exact Or.inl h1
        · exact Or.inr (Or.inl h1)
        · obtain ⟨ms, k, v, hparse, hmem, hk, hv1, hv2⟩ := h1
          have hw : wrongType "number" v :=
            ⟨hv1, fun e => absurd e (by decide), fun _ => hv2⟩
          rcases hk with hk | hk
          · exact Or.inr (Or.inr ⟨ms, ⟨"a", "number", "The first number"⟩, k, v, hparse,
              by simp, by simp, hmem, hk, hw⟩)
          · exact Or.inr (Or.inr ⟨ms, ⟨"b", "number", "The second number"⟩, k, v, hparse,
              by simp, by simp, hmem, hk, hw⟩)
  · simp only [hpayload1]
    refine ⟨?_, ?_, ?_, ?_, hzero1, hzero2, hzero3⟩
    · intro h
      rw [executeFunction_say_hello, (unmarshal_syntax_error arguments h).1]
    · intro v h h1 h2
      rw [executeFunction_say_hello, (unmarshal_not_object arguments v h h1 h2).1]
    · intro ms field key v hparse hfield _ hmem hkey hwrong
      simp only [List.mem_cons, List.mem_singleton, List.not_mem_nil, or_false] at hfield
      subst hfield
      rw [executeFunction_say_hello,
        unmarshalSayHello_mistyped arguments ms key v hparse hmem hkey hwrong.1
          (hwrong.2.1 rfl)]
    · intro h
      rw [executeFunction_say_hello] at h
      cases hu : unmarshalSayHello arguments with
      | some args =>
        rw [hu] at h
        exact absurd h (helloPayload_ne_invalid _)
      | none =>
        rcases unmarshalSayHello_none_inv arguments hu with h1 | h1 | h1
        · exact Or.inl h1
        · exact Or.inr (Or.inl h1)
        · obtain ⟨ms, k, v, hparse, hmem, hk, hv1, hv2⟩ := h1
          have hw : wrongType "string" v :=
            ⟨hv1, fun _ => hv2, fun e => absurd e (by decide)⟩
          exact Or.inr (Or.inr ⟨ms, ⟨"name", "string", "The name to greet"⟩, k, v, hparse,
            by simp, by simp, hmem, hk, hw⟩)

/-- C5 (amended), at the arguments `{"a":"oops"}` of `calculate_sum`, which are rejected,
and at the arguments `{"name":null}` of `say_hello`, which are accepted. -/
theorem invalid_arguments_rejected_witness :
    executeFunction "calculate_sum" "\x7b\"a\":\"oops\"\x7d" =
      invalidArgumentsPayload "calculate_sum" ∧
    executeFunction "say_hello" "\x7b\"name\":null\x7d" = "\x7b\"message\": \"👋 Hello, !🙂\"\x7d" :=
  ⟨(invalid_arguments_rejected "\x7b\"a\":\"oops\"\x7d"
      { Name := "calculate_sum"
        Description := "Calculate the sum of two numbers"
        properties :=
          [⟨"a", "number", "The first number"⟩, ⟨"b", "number", "The second number"⟩]
        required := ["a", "b"] } (by decide)).2.2.1
      [("a".data, JValue.string "oops".data)] ⟨"a", "number", "The first number"⟩ "a".data
      (JValue.string "oops".data) rfl (by decide) (by decide) (List.mem_singleton.mpr rfl)
      (by decide)
      ⟨fun h => JValue.noConfusion h, fun h => absurd h (by decide),
        fun _ lit h => JValue.noConfusion h⟩,
   (invalid_arguments_rejected "\x7b\"name\":null\x7d"
      { Name := "say_hello"
        Description := "Say hello to the given name"
        properties := [⟨"name", "string", "The name to greet"⟩]
        required := ["name"] } (by decide)).2.2.2.2.1
      [("name".data, JValue.null)] rfl
      (fun key v hmem _ => (Prod.mk.inj (List.mem_singleton.mp hmem)).2)⟩

/-- C5 as stated fails: arguments that omit the required field `name` of `say_hello` or
the required field `b` of `calculate_sum`, and arguments that give a required field the
value `null`, are decoded with the zero value of the field and a success payload is
returned. -/
theorem omitted_or_null_field_accepted :
    parseJSON "\x7b\x7d" = some (JValue.object []) ∧
    GetToolsIndex.map (fun t => (t.Name, t.required)) =
      [("calculate_sum", ["a", "b"]), ("say_hello", ["name"])] ∧
    executeFunction "say_hello" "\x7b\x7d" = "\x7b\"message\": \"👋 Hello, !🙂\"\x7d" ∧
    executeFunction "say_hello" "\x7b\x7d" ≠ invalidArgumentsPayload "say_hello" ∧
    executeFunction "calculate_sum" "\x7b\"a\":1\x7d" = "\x7b\"result\": 1\x7d" ∧
    executeFunction "calculate_sum" "\x7b\"a\":1\x7d" ≠ invalidArgumentsPayload "calculate_sum" ∧
    parseJSON "\x7b\"name\":null\x7d" = some (JValue.object [("name".data, JValue.null)]) ∧
    executeFunction "say_hello" "\x7b\"name\":null\x7d" = "\x7b\"message\": \"👋 Hello, !🙂\"\x7d" ∧
    executeFunction "say_hello" "\x7b\"name\":null\x7d" ≠ invalidArgumentsPayload "say_hello" ∧
    executeFunction "calculate_sum" "\x7b\"a\":null,\"b\":3\x7d" = "\x7b\"result\": 3\x7d" ∧
    executeFunction "calculate_sum" "\x7b\"a\":null,\"b\":3\x7d" ≠
      invalidArgumentsPayload "calculate_sum" := by
  refine ⟨rfl, by decide, by decide, by decide, by decide!, by decide!, rfl, by decide,
    by decide, by decide!, by decide!⟩

/-- C7 fails on the code: for a decoded name holding a double quote the text returned by
`say_hello` is not a JSON text, and neither is the text returned by `calculate_sum` when
the sum overflows. -/
theorem say_hello_quote_malformed :
    executeFunction "say_hello" "\x7b\"name\":\"a\\\"b\"\x7d" = "\x7b\"message\": \"👋 Hello, a\"b!🙂\"\x7d" ∧
    parseJSON "\x7b\"message\": \"👋 Hello, a\"b!🙂\"\x7d" = none ∧
    executeFunction "calculate_sum" "\x7b\"a\":1e308,\"b\":1e308\x7d" = "\x7b\"result\": +Inf\x7d" ∧
    parseJSON "\x7b\"result\": +Inf\x7d" = none := by
  refine ⟨by decide, rfl, by decide!, rfl⟩


/-! ## The invariant of a run -/

theorem blocksMessages_append (bs1 bs2 : List (Int × List ToolCall)) :
    blocksMessages (bs1 ++ bs2) = blocksMessages bs1 ++ blocksMessages bs2 := by
  induction bs1 with
  | nil => rfl
  | cons b bs ih => simp [blocksMessages, ih, List.append_assoc]

theorem blocksRecords_append (bs1 bs2 : List (Int × List ToolCall)) :
    blocksRecords (bs1 ++ bs2) = blocksRecords bs1 ++ blocksRecords bs2 := by
  induction bs1 with
  | nil => rfl
  | cons b bs ih => simp [blocksRecords, ih, List.append_assoc]

theorem gatewayCallStates_stopped (st : LoopState) (xs : List Exchange)
    (h : st.stopped = true) : gatewayCallStates st xs = [] := by
  cases xs <;> simp [gatewayCallStates, h]

theorem shaped_step (u : String) (st st2 : LoopState) (x : Exchange)
    (hx : uniqueWithinResponse x) (hst : Shaped u st)
    (hnext : loopBody st x = Outcome.next st2) :
    st2.stopped = true ∨ Shaped u st2 := by
  cases hresp : x.response with
  | error err => simp [loopBody, hresp] at hnext
  | ok completion =>
    cases hchoices : completion.Choices with
    | nil => simp [loopBody, hresp, hchoices] at hnext
    | cons choice others =>
      by_cases h1 : choice.FinishReason = "tool_calls"
      · by_cases h2 : choice.ToolCalls = []
        · rw [loopBody_empty_tool_calls_eq st x completion choice others hresp hchoices h1 h2]
            at hnext
          cases hnext
          exact Or.inr hst
        · rw [loopBody_tool_calls_eq st x completion choice others hresp hchoices h1 h2]
            at hnext
          cases hnext
          right
          obtain ⟨blocks, hm, hh, hn⟩ := hst
          refine ⟨blocks ++ [(timeSince x.startTime x.sinceTime, choice.ToolCalls)], ?_, ?_, ?_⟩
          · simp [hm, blocksMessages_append, blocksMessages, blockMessages]
          · simp [hh, blocksRecords_append, blocksRecords]
          · intro b hb
            rcases List.mem_append.mp hb with hb | hb
            · exact hn b hb
            · rw [List.mem_singleton.mp hb]
              exact hx completion hresp choice (by rw [hchoices]; exact List.mem_cons_self _ _)
      · by_cases h2 : choice.FinishReason = "stop"
        · rw [loopBody_stop_eq st x completion choice others hresp hchoices h2] at hnext
          cases hnext
          exact Or.inl rfl
        · rw [loopBody_other_eq st x completion choice others hresp hchoices h1 h2] at hnext
          cases hnext
          exact Or.inl rfl

theorem shaped_gatewayCallStates (u : String) (xs : List Exchange) (st s : LoopState)
    (hxs : ∀ x ∈ xs, uniqueWithinResponse x) (hst : Shaped u st)
    (hs : s ∈ gatewayCallStates st xs) : Shaped u s := by
  induction xs generalizing st with
  | nil =>
    by_cases hstop : st.stopped = true
    · simp [gatewayCallStates, hstop] at hs
    · simp [gatewayCallStates, hstop] at hs
      rw [hs]; exact hst
  | cons x xs ih =>
    by_cases hstop : st.stopped = true
    · simp [gatewayCallStates, hstop] at hs
    · simp only [gatewayCallStates, hstop] at hs
      cases hbody : loopBody st x with
      | next st2 =>
        simp only [hbody] at hs
        simp at hs
        rcases hs with hs | hs
        · rw [hs]; exact hst
        · rcases shaped_step u st st2 x (hxs x (List.mem_cons_self _ _)) hst hbody with h | h
          · rw [gatewayCallStates_stopped st2 xs h] at hs
            cases hs
          · exact ih st2 (fun y hy => hxs y (List.mem_cons_of_mem _ hy)) h hs
      | returned err st2 =>
        simp only [hbody] at hs
        simp at hs
        rw [hs]; exact hst
      | panicked st2 =>
        simp only [hbody] at hs
        simp at hs
        rw [hs]; exact hst

theorem shaped_initialState (u : String) : Shaped u (initialState u) :=
  ⟨[], rfl, rfl, fun _ h => by cases h⟩


theorem toolMessages_not_assistant (calls : List ToolCall) :
    ∀ m ∈ calls.map toolMessageOf, (!m.isAssistant) = true := by
  intro m hm
  obtain ⟨c, _, rfl⟩ := List.mem_map.mp hm
  rfl

theorem takeWhile_blocksMessages (bs : List (Int × List ToolCall)) :
    (blocksMessages bs).takeWhile (fun m => !m.isAssistant) = [] := by
  cases bs with
  | nil => rfl
  | cons b bs => simp [blocksMessages, blockMessages, Message.isAssistant]

theorem toolResultCount_toolMessages (id : String) (calls : List ToolCall) :
    toolResultCount id (calls.map toolMessageOf) = (calls.map (fun c => c.ID)).count id := by
  induction calls with
  | nil => rfl
  | cons c cs ih =>
    unfold toolResultCount at ih ⊢
    simp only [List.map_cons, List.countP_cons, List.count_cons, ih]
    simp [toolMessageOf, Message.isToolResultFor]

theorem ledgerCount_records (id : String) (d : Int) (calls : List ToolCall) :
    ledgerCount id (calls.map (recordOf d)) = (calls.map (fun c => c.ID)).count id := by
  induction calls with
  | nil => rfl
  | cons c cs ih =>
    unfold ledgerCount at ih ⊢
    simp only [List.map_cons, List.countP_cons, List.count_cons, ih]
    simp [recordOf]

theorem requestIds_toolMessages (calls : List ToolCall) (rest : List Message) :
    requestIds (calls.map toolMessageOf ++ rest) = requestIds rest := by
  induction calls with
  | nil => rfl
  | cons c cs ih => simpa [requestIds, toolMessageOf] using ih

theorem map_ID_toToolCallParam (calls : List ToolCall) :
    (calls.map toToolCallParam).map (fun c => c.ID) = calls.map (fun c => c.ID) := by
  simp [toToolCallParam, Function.comp_def]

theorem requestIds_blocksMessages_cons (b : Int × List ToolCall)
    (bs : List (Int × List ToolCall)) :
    requestIds (blocksMessages (b :: bs)) =
      b.2.map (fun c => c.ID) ++ requestIds (blocksMessages bs) := by
  simp only [blocksMessages, blockMessages, List.cons_append, requestIds,
    map_ID_toToolCallParam]
  show _ ++ requestIds (b.2.map toolMessageOf ++ blocksMessages bs) = _
  rw [requestIds_toolMessages]

theorem ledgerCount_blocksRecords (id : String) (bs : List (Int × List ToolCall)) :
    ledgerCount id (blocksRecords bs) = (requestIds (blocksMessages bs)).count id := by
  induction bs with
  | nil => rfl
  | cons b bs ih =>
    rw [requestIds_blocksMessages_cons, List.count_append, ← ih, ← ledgerCount_records id b.1]
    simp [ledgerCount, blocksRecords]

theorem toolResultCount_blocksMessages (id : String) (bs : List (Int × List ToolCall)) :
    toolResultCount id (blocksMessages bs) = (requestIds (blocksMessages bs)).count id := by
  induction bs with
  | nil => rfl
  | cons b bs ih =>
    rw [requestIds_blocksMessages_cons, List.count_append, ← ih, ← toolResultCount_toolMessages]
    simp [toolResultCount, blocksMessages, blockMessages, Message.isToolResultFor]

theorem blocksMessages_split (bs : List (Int × List ToolCall)) (pre post : List Message)
    (content : Option String) (tcs : List ToolCallParam)
    (h : blocksMessages bs = pre ++ Message.assistant content tcs :: post) :
    ∃ b bs2, tcs = b.2.map toToolCallParam ∧ b ∈ bs ∧
      post = b.2.map toolMessageOf ++ blocksMessages bs2 := by
  induction bs generalizing pre with
  | nil => cases pre <;> simp [blocksMessages] at h
  | cons b bs ih =>
    cases pre with
    | nil =>
      simp only [blocksMessages, blockMessages, List.cons_append, List.nil_append,
        List.cons.injEq, Message.assistant.injEq] at h
      exact ⟨b, bs, h.1.2.symm, List.mem_cons_self _ _, h.2.symm⟩
    | cons m pre2 =>
      simp only [blocksMessages, blockMessages, List.cons_append, List.cons.injEq] at h
      obtain ⟨_, h⟩ := h
      rcases List.append_eq_append_iff.mp h with ⟨a2, _, h2⟩ | ⟨c2, h1, h2⟩
      · obtain ⟨b2, bs2, e1, e3, e4⟩ := ih a2 h2
        exact ⟨b2, bs2, e1, List.mem_cons_of_mem _ e3, e4⟩
      · cases c2 with
        | nil =>
          simp only [List.nil_append] at h2
          obtain ⟨b2, bs2, e1, e3, e4⟩ := ih [] (by simpa using h2.symm)
          exact ⟨b2, bs2, e1, List.mem_cons_of_mem _ e3, e4⟩
        | cons c c3 =>
          simp only [List.cons_append, List.cons.injEq] at h2
          have hmem : Message.assistant content tcs ∈ b.2.map toolMessageOf := by
            rw [h1, ← h2.1]; simp
          have := toolMessages_not_assistant b.2 _ hmem
          simp [Message.isAssistant] at this


/-- C3 (amended): in a run started from the single user turn, against responses whose
tool-call identifiers are unique within each response, whenever a gateway call is issued
every tool call carried by an assistant turn has exactly one tool-result turn with its
identifier between that assistant turn and the next one; the ledger and the transcript
hold as many entries for that identifier as the assistant turns carry requests with it,
which is exactly one when no identifier is used by two requests of the run. -/
theorem tool_results_invariant (userMessage : String) (xs : List Exchange) (s : LoopState)
    (pre post : List Message) (content : Option String) (tcs : List ToolCallParam)
    (tc : ToolCallParam)
    (hxs : ∀ x ∈ xs, uniqueWithinResponse x)
    (hs : s ∈ gatewayCallStates (initialState userMessage) xs)
    (hsplit : s.messages = pre ++ Message.assistant content tcs :: post)
    (htc : tc ∈ tcs) :
    toolResultCount tc.ID (post.takeWhile (fun m => !m.isAssistant)) = 1 ∧
    ledgerCount tc.ID s.functionCallHistory = (requestIds s.messages).count tc.ID ∧
    toolResultCount tc.ID s.messages = (requestIds s.messages).count tc.ID ∧
    ((requestIds s.messages).Nodup →
      ledgerCount tc.ID s.functionCallHistory = 1 ∧ toolResultCount tc.ID s.messages = 1) := by
  obtain ⟨blocks, hm, hh, hn⟩ :=
    shaped_gatewayCallStates userMessage xs _ s hxs (shaped_initialState userMessage) hs
  have hids : requestIds s.messages = requestIds (blocksMessages blocks) := by
    rw [hm]; rfl
  have hledger : ledgerCount tc.ID s.functionCallHistory = (requestIds s.messages).count tc.ID := by
    rw [hh, hids]; exact ledgerCount_blocksRecords _ _
  have htools : toolResultCount tc.ID s.messages = (requestIds s.messages).count tc.ID := by
    rw [hids, ← toolResultCount_blocksMessages, hm]
    simp [toolResultCount, Message.isToolResultFor]
  have hsplit2 : ∃ pre2, blocksMessages blocks = pre2 ++ Message.assistant content tcs :: post := by
    rw [hm] at hsplit
    cases pre with
    | nil => simp at hsplit
    | cons m pre2 =>
      simp only [List.cons_append, List.cons.injEq] at hsplit
      exact ⟨pre2, hsplit.2⟩
  obtain ⟨pre2, hsplit2⟩ := hsplit2
  obtain ⟨b, bs2, htcs, hb, hpost⟩ := blocksMessages_split blocks pre2 post content tcs hsplit2
  have hid : tc.ID ∈ b.2.map (fun c => c.ID) := by
    rw [← map_ID_toToolCallParam, ← htcs]
    exact List.mem_map_of_mem _ htc
  have hmem : tc.ID ∈ requestIds s.messages := by
    rw [hids]
    clear hsplit2 hm hh hn hledger htools hids
    induction blocks with
    | nil => cases hb
    | cons b0 bs ih =>
      rw [requestIds_blocksMessages_cons]
      rcases List.mem_cons.mp hb with h | h
      · subst h; exact List.mem_append_left _ hid
      · exact List.mem_append_right _ (ih h)
  refine ⟨?_, hledger, htools, ?_⟩
  · rw [hpost, List.takeWhile_append_of_pos (toolMessages_not_assistant b.2),
      takeWhile_blocksMessages, List.append_nil, toolResultCount_toolMessages]
    exact List.count_eq_one_of_mem (hn b hb) hid
  · intro hnodup
    rw [hledger, htools]
    exact ⟨List.count_eq_one_of_mem hnodup hmem, List.count_eq_one_of_mem hnodup hmem⟩


theorem uniqueWithinResponse_sampleHello :
    ∀ x ∈ [sampleHelloExchange, sampleHelloExchange], uniqueWithinResponse x := by
  intro x hx completion hc choice hch
  simp only [List.mem_cons, List.mem_singleton, List.not_mem_nil, or_false, or_self] at hx
  subst hx
  simp only [sampleHelloExchange, Except.ok.injEq] at hc
  subst hc
  simp only [List.mem_singleton] at hch
  subst hch
  decide

/-- C3 (amended), at the state reached after `sampleHelloExchange`, for its call. -/
theorem tool_results_invariant_witness :
    toolResultCount "call_2"
      ([Message.tool "\x7b\"message\": \"👋 Hello, Bob!🙂\"\x7d" "call_2"].takeWhile
        (fun m => !m.isAssistant)) = 1 ∧
    ledgerCount "call_2" sampleStateAfterCalls.functionCallHistory =
      (requestIds sampleStateAfterCalls.messages).count "call_2" ∧
    toolResultCount "call_2" sampleStateAfterCalls.messages =
      (requestIds sampleStateAfterCalls.messages).count "call_2" ∧
    (requestIds sampleStateAfterCalls.messages).Nodup ∧
    ledgerCount "call_2" sampleStateAfterCalls.functionCallHistory = 1 ∧
    toolResultCount "call_2" sampleStateAfterCalls.messages = 1 :=
  have h := tool_results_invariant "hi" [sampleHelloExchange, sampleHelloExchange]
    sampleStateAfterCalls
    [Message.user "hi"] [Message.tool "\x7b\"message\": \"👋 Hello, Bob!🙂\"\x7d" "call_2"] none
    [⟨"call_2", "function", "say_hello", "\x7b\"name\":\"Bob\"\x7d"⟩]
    ⟨"call_2", "function", "say_hello", "\x7b\"name\":\"Bob\"\x7d"⟩
    uniqueWithinResponse_sampleHello (by decide) rfl (by decide)
  ⟨h.1, h.2.1, h.2.2.1, by decide, h.2.2.2 (by decide)⟩

/-- C3 as stated fails: when two responses, each with identifiers unique within it, use
the same identifier, the state in which the third gateway call is issued has two ledger
entries and two tool-result turns for the request of the first assistant turn. -/
theorem reused_identifier_two_entries :
    (∀ x ∈ [sampleHelloExchange, sampleHelloExchange], uniqueWithinResponse x) ∧
    sampleStateReusedId ∈
      gatewayCallStates (initialState "hi") [sampleHelloExchange, sampleHelloExchange] ∧
    sampleStateReusedId.messages =
      [Message.user "hi"] ++
        Message.assistant none [⟨"call_2", "function", "say_hello", "\x7b\"name\":\"Bob\"\x7d"⟩] ::
        [ Message.tool "\x7b\"message\": \"👋 Hello, Bob!🙂\"\x7d" "call_2",
          Message.assistant none [⟨"call_2", "function", "say_hello", "\x7b\"name\":\"Bob\"\x7d"⟩],
          Message.tool "\x7b\"message\": \"👋 Hello, Bob!🙂\"\x7d" "call_2" ] ∧
    ledgerCount "call_2" sampleStateReusedId.functionCallHistory = 2 ∧
    toolResultCount "call_2" sampleStateReusedId.messages = 2 := by
  refine ⟨?_, by decide, rfl, by decide, by decide⟩
  intro x hx completion hc choice hch
  simp only [List.mem_cons, List.mem_singleton, List.not_mem_nil, or_false, or_self] at hx
  subst hx
  simp only [sampleHelloExchange, Except.ok.injEq] at hc
  subst hc
  simp only [List.mem_singleton] at hch
  subst hch
  decide

/-! ## Scenarios -/

/-- C6 (amended): Scenario A with the tool `calculate_sum`, the tool of this program that
takes `a` and `b`: the executor returns the JSON object with the field `result` equal to
42, the loop appends the assistant turn and the tool-result turn, issues a second gateway
call, stops on its final answer, and the ledger holds exactly the entry of that call. -/
theorem scenario_calculate_sum (userMessage : String) (t0 t1 t2 t3 : Nat) :
    executeFunction "calculate_sum" "\x7b\"a\":40,\"b\":2\x7d" = "\x7b\"result\": 42\x7d" ∧
    parseJSON "\x7b\"result\": 42\x7d" = some (JValue.object [("result".data, JValue.number "42".data)]) ∧
    runLoop (initialState userMessage)
      [ ⟨t0, Except.ok ⟨[⟨"tool_calls", "", [⟨"1", "calculate_sum", "\x7b\"a\":40,\"b\":2\x7d"⟩]⟩]⟩, t1⟩,
        ⟨t2, Except.ok ⟨[⟨"stop", "42", []⟩]⟩, t3⟩ ] 0 =
      { ending := RunEnd.finished,
        state :=
          { messages :=
              [ Message.user userMessage,
                Message.assistant none [⟨"1", "function", "calculate_sum", "\x7b\"a\":40,\"b\":2\x7d"⟩],
                Message.tool "\x7b\"result\": 42\x7d" "1",
                Message.assistant (some "42") [] ],
            functionCallHistory :=
              [⟨"calculate_sum", "\x7b\"a\":40,\"b\":2\x7d", "\x7b\"result\": 42\x7d", "1", timeSince t0 t1⟩],
            stopped := true },
        gatewayCalls := 2 } := by
  have hexec : executeFunction "calculate_sum" "\x7b\"a\":40,\"b\":2\x7d" = "\x7b\"result\": 42\x7d" := by
    decide!
  refine ⟨hexec, rfl, ?_⟩
  simp [runLoop, loopBody, initialState, processToolCalls, toToolCallParam, hexec]

/-- C6 as stated fails: `add_two_numbers` is not a tool of this program, the executor
returns the unknown-function payload for it and the ledger entry holds that payload. -/
theorem scenario_add_two_numbers :
    "add_two_numbers" ∉ GetToolsIndex.map (fun t => t.Name) ∧
    executeFunction "add_two_numbers" "\x7b\"a\":40,\"b\":2\x7d" = "\x7b\"error\": \"Unknown function\"\x7d" ∧
    executeFunction "add_two_numbers" "\x7b\"a\":40,\"b\":2\x7d" ≠ "\x7b\"result\": 42\x7d" ∧
    executeFunction "add_two_numbers" "\x7b\"a\":40,\"b\":2\x7d" ≠ "\x7b\"result\":42\x7d" ∧
    (runLoop (initialState "Add 40 and 2")
      [ ⟨0, Except.ok ⟨[⟨"tool_calls", "", [⟨"1", "add_two_numbers", "\x7b\"a\":40,\"b\":2\x7d"⟩]⟩]⟩, 1⟩,
        ⟨2, Except.ok ⟨[⟨"stop", "42", []⟩]⟩, 3⟩ ] 0).state.functionCallHistory =
      [⟨"add_two_numbers", "\x7b\"a\":40,\"b\":2\x7d", "\x7b\"error\": \"Unknown function\"\x7d", "1", 1⟩] := by
  decide

/-- C2 fails on the code: after a response with finish reason `tool_calls` and no tool
call the transcript and the ledger are unchanged but `stopped` is still false, and the
loop issues the next gateway call; three such responses are followed by a fourth call. -/
theorem empty_tool_calls_keeps_running (userMessage : String) (t0 t1 : Nat) :
    (initialState userMessage).stopped = false ∧
    loopBody (initialState userMessage) ⟨t0, Except.ok ⟨[⟨"tool_calls", "", []⟩]⟩, t1⟩ =
      Outcome.next (initialState userMessage) ∧
    runLoop (initialState userMessage)
      [ ⟨t0, Except.ok ⟨[⟨"tool_calls", "", []⟩]⟩, t1⟩,
        ⟨t0, Except.ok ⟨[⟨"tool_calls", "", []⟩]⟩, t1⟩,
        ⟨t0, Except.ok ⟨[⟨"tool_calls", "", []⟩]⟩, t1⟩ ] 0 =
      { ending := RunEnd.awaiting, state := initialState userMessage, gatewayCalls := 3 } := by
  simp [runLoop, loopBody, initialState]

/-- C10, at the two tool calls of `sampleToolCallsExchange`, whose clock readings are
100 and 350. -/
theorem iteration_duration_witness :
    ∃ appended : List FunctionCallRecord,
      [ (⟨"calculate_sum", "\x7b\"a\":40,\"b\":\"x\"\x7d",
            "\x7b\"error\": \"Invalid arguments for calculate_sum\"\x7d", "call_1", 250⟩ :
            FunctionCallRecord),
        ⟨"say_hello", "\x7b\"name\":\"Bob\"\x7d",
            "\x7b\"message\": \"👋 Hello, Bob!🙂\"\x7d", "call_2", 250⟩ ] = [] ++ appended ∧
      (∀ r ∈ appended, r.Duration = ((350 : Nat) : Int) - ((100 : Nat) : Int)) ∧
      (∀ r1 ∈ appended, ∀ r2 ∈ appended, r1.Duration = r2.Duration) :=
  iteration_duration (initialState "hi")
    { messages :=
        [ Message.user "hi",
          Message.assistant none
            [ ⟨"call_1", "function", "calculate_sum", "\x7b\"a\":40,\"b\":\"x\"\x7d"⟩,
              ⟨"call_2", "function", "say_hello", "\x7b\"name\":\"Bob\"\x7d"⟩ ],
          Message.tool "\x7b\"error\": \"Invalid arguments for calculate_sum\"\x7d" "call_1",
          Message.tool "\x7b\"message\": \"👋 Hello, Bob!🙂\"\x7d" "call_2" ],
      functionCallHistory :=
        [ ⟨"calculate_sum", "\x7b\"a\":40,\"b\":\"x\"\x7d",
            "\x7b\"error\": \"Invalid arguments for calculate_sum\"\x7d", "call_1", 250⟩,
          ⟨"say_hello", "\x7b\"name\":\"Bob\"\x7d",
            "\x7b\"message\": \"👋 Hello, Bob!🙂\"\x7d", "call_2", 250⟩ ],
      stopped := false }
    sampleToolCallsExchange (by decide)

end MeetLucy
